import Mathlib

/-
Verification of the grain-route allocation engine
(Server/src/utils/freshness.js, Server/src/services/simulationService.js,
Server/src/controllers/shipment.controller.js).

Conventions of the embedding:
- JavaScript numbers are modelled as rationals.  Timestamps are epoch
  milliseconds as rationals.
- A JavaScript value that may be missing (undefined or null) is an Option.
- The two transcendental ingredients of the code, the haversine distance and
  the exponential distance score, are abstracted as oracle function
  parameters: every theorem holds for every oracle, and witnesses instantiate
  them with concrete rational functions.
- Array.prototype.sort with a comparator is modelled as a stable insertion
  sort using the comparator; for length at most two, and for every consistent
  comparator, this agrees with any conforming implementation.
-/

namespace GrainRoute

/-- JavaScript Math.round: round half toward positive infinity. -/
def jsRound (q : ℚ) : ℤ := ⌊q + 1/2⌋

/-- Round to 2 decimals as the source does: Math.round(x * 100) / 100. -/
def round2 (q : ℚ) : ℚ := (jsRound (q * 100) : ℚ) / 100

/-- Round to 3 decimals: Math.round(x * 1000) / 1000. -/
def round3 (q : ℚ) : ℚ := (jsRound (q * 1000) : ℚ) / 1000

/-- JavaScript Math.max on two numbers. -/
def jmax (a b : ℚ) : ℚ := if a ≤ b then b else a

/-- JavaScript Math.min on two numbers. -/
def jmin (a b : ℚ) : ℚ := if a ≤ b then a else b

theorem jmax_eq_max (a b : ℚ) : jmax a b = max a b := (max_def a b).symm

theorem jmin_eq_min (a b : ℚ) : jmin a b = min a b := (min_def a b).symm

/-- Milliseconds in one hour (1000 * 60 * 60). -/
def msPerHour : ℚ := 1000 * 60 * 60

/-- Batch lifecycle status. -/
inductive BatchStatus where
  | stored
  | inTransit
  | delivered
  | spoiled
deriving DecidableEq, Repr

/-- A Batch document, with the fields the allocation engine reads.
Timestamps are epoch milliseconds. -/
structure Batch where
  id : String
  foodType : String
  quantity_kg : ℚ
  original_quantity_kg : Option ℚ
  originNode : String
  currentNode : String
  status : BatchStatus
  manufacture_date : Option ℚ
  shelf_life_hours : Option ℚ
  createdAt : Option ℚ
  initial_temp_c : Option ℚ
  freshnessPct : Option ℚ
  parentBatchId : Option String
deriving DecidableEq, Repr

/-- Helper to build a stored batch from the commonly varied fields. -/
def mkBatch (id foodType node : String) (qty : ℚ)
    (manufacture shelf : Option ℚ) : Batch :=
  { id := id
    foodType := foodType
    quantity_kg := qty
    original_quantity_kg := none
    originNode := node
    currentNode := node
    status := BatchStatus.stored
    manufacture_date := manufacture
    shelf_life_hours := shelf
    createdAt := none
    initial_temp_c := none
    freshnessPct := none
    parentBatchId := none }

/-- temp_factor = 1 + max(0, (avg_temp_c - 20) / 10) * 0.5 from freshness.js. -/
def tempFactor (avgTemp : ℚ) : ℚ := 1 + jmax 0 ((avgTemp - 20) / 10) * (1/2)

/-- calculateFreshnessPct from freshness.js.  Returns 100 when the batch has
no manufacture date or no positive shelf life; otherwise
Math.round(max(0, 100 - elapsedHours / shelfLife * 100 * tempFactor) * 100) / 100.
The JavaScript default argument avgTemp = 25 is passed explicitly by callers. -/
def calculateFreshnessPct (b : Batch) (currentDate : ℚ) (avgTemp : ℚ) : ℚ :=
  match b.manufacture_date with
  | none => 100
  | some m =>
    match b.shelf_life_hours with
    | none => 100
    | some s =>
      if s ≤ 0 then 100
      else
        round2 (jmax 0 (100 - (currentDate - m) / msPerHour / s * 100 * tempFactor avgTemp))

/-- isSpoiled from freshness.js: freshness at the given time is at most 0. -/
def isSpoiled (b : Batch) (currentDate : ℚ) (avgTemp : ℚ) : Bool :=
  calculateFreshnessPct b currentDate avgTemp ≤ 0

/-- remainingShelfLifeHours from freshness.js.  The result none models the
JavaScript NaN produced on the metadata-missing path (new Date(undefined) or
undefined / tempFactor); some h is the finite number the code returns. -/
def remainingShelfLifeHours (b : Batch) (currentDate : ℚ) (avgTemp : ℚ) : Option ℚ :=
  if calculateFreshnessPct b currentDate avgTemp ≤ 0 then some 0
  else
    match b.manufacture_date, b.shelf_life_hours with
    | some m, some s =>
      some (jmax 0 (s / tempFactor avgTemp - (currentDate - m) / msPerHour))
    | _, _ => none

/-- Whether Number(batch.shelf_life_hours) is finite and positive. -/
def hasPositiveShelfLife (b : Batch) : Bool :=
  match b.shelf_life_hours with
  | some s => decide (0 < s)
  | none => false

/-- safeRemainingShelfLifeHours from simulationService.js.  The result none
models positive infinity (the sort key that never blocks selection); the
wrapper forwards to remainingShelfLifeHours with the default temperature 25
and maps any non-finite result to infinity. -/
def safeRemainingShelfLifeHours (b : Batch) (currentDate : ℚ) : Option ℚ :=
  if hasPositiveShelfLife b && b.manufacture_date.isSome then
    remainingShelfLifeHours b currentDate 25
  else
    none

/-- Modelled from the spec: the freshness formula as the specification words
it, with a two-sided clamp to [0, 100] before rounding
(calculateFreshnessPct in the source clamps only from below). -/
def specFreshnessPct (b : Batch) (currentDate : ℚ) (avgTemp : ℚ) : ℚ :=
  match b.manufacture_date with
  | none => 100
  | some m =>
    match b.shelf_life_hours with
    | none => 100
    | some s =>
      if s ≤ 0 then 100
      else
        round2 (jmin 100 (jmax 0 (100 - (currentDate - m) / msPerHour / s * 100 * tempFactor avgTemp)))

theorem tempFactor_one_le (avgTemp : ℚ) : 1 ≤ tempFactor avgTemp := by
  unfold tempFactor
  rw [jmax_eq_max]
  have h : 0 ≤ max 0 ((avgTemp - 20) / 10) := le_max_left 0 _
  nlinarith

theorem round2_nonneg {q : ℚ} (h : 0 ≤ q) : 0 ≤ round2 q := by
  unfold round2 jsRound
  have h1 : (0 : ℤ) ≤ ⌊q * 100 + 1/2⌋ := Int.floor_nonneg.mpr (by nlinarith)
  have h2 : (0 : ℚ) ≤ (⌊q * 100 + 1/2⌋ : ℚ) := by exact_mod_cast h1
  linarith

theorem round2_le_100 {q : ℚ} (h : q ≤ 100) : round2 q ≤ 100 := by
  unfold round2 jsRound
  have h1 : ⌊q * 100 + 1/2⌋ ≤ ⌊(10000 : ℚ) + 1/2⌋ :=
    Int.floor_le_floor (by nlinarith)
  have h2 : ⌊(10000 : ℚ) + 1/2⌋ = 10000 := by norm_num
  have h3 : (⌊q * 100 + 1/2⌋ : ℚ) ≤ 10000 := by
    rw [h2] at h1; exact_mod_cast h1
  linarith

/-- The decay term elapsed / shelfLife * 100 * tempFactor is nonnegative for
nonnegative elapsed time and positive shelf life. -/
theorem decayTerm_nonneg {e s temp : ℚ} (he : 0 ≤ e) (hs : 0 < s) :
    0 ≤ e / msPerHour / s * 100 * tempFactor temp := by
  have hms : (0 : ℚ) < msPerHour := by norm_num [msPerHour]
  have h1 : 0 ≤ e / msPerHour / s := div_nonneg (div_nonneg he hms.le) hs.le
  have h2 : 0 ≤ tempFactor temp := le_trans zero_le_one (tempFactor_one_le temp)
  have h3 : 0 ≤ e / msPerHour / s * 100 := by nlinarith
  exact mul_nonneg h3 h2

/-- C3 (amended).  For every batch with a manufacture date and shelf life,
and every evaluation time at or after the manufacture date,
calculateFreshnessPct agrees with the spec formula
clamp(0, 100, 100 - elapsed / shelfLife * 100 * tempFactor) rounded to two
decimals (the upper clamp is vacuous there); and a batch with shelf life 48h
evaluated 24h after manufacture at 25 degrees yields exactly 37.5.  For times
before the manufacture date the code applies only the lower clamp and can
exceed 100, so the two-sided clamp claim is restricted to times at or after
manufacture. -/
theorem calculateFreshnessPct_eq_spec_formula :
    (∀ (b : Batch) (t temp m : ℚ), b.manufacture_date = some m → m ≤ t →
      calculateFreshnessPct b t temp = specFreshnessPct b t temp)
    ∧ calculateFreshnessPct
        (mkBatch "s1" "rice" "w1" 100 (some 0) (some 48)) (24 * msPerHour) 25
        = 75/2 := by
  constructor
  · intro b t temp m hm hmt
    unfold calculateFreshnessPct specFreshnessPct
    rw [hm]
    cases hs : b.shelf_life_hours with
    | none => rfl
    | some s =>
      by_cases hsp : s ≤ 0
      · simp [hsp]
      · push_neg at hsp
        simp only [if_neg (not_le.mpr hsp)]
        rw [jmax_eq_max, jmin_eq_min]
        congr 1
        have hE : 0 ≤ (t - m) / msPerHour / s * 100 * tempFactor temp :=
          decayTerm_nonneg (by linarith) hsp
        have hle : max 0 (100 - (t - m) / msPerHour / s * 100 * tempFactor temp) ≤ 100 :=
          max_le (by norm_num) (by linarith)
        exact (min_eq_right hle).symm
  · norm_num [calculateFreshnessPct, specFreshnessPct, remainingShelfLifeHours,
      safeRemainingShelfLifeHours, hasPositiveShelfLife, mkBatch, round2, jsRound,
      msPerHour, tempFactor, jmax, jmin]

/-- Witness for C3: the equality applied at a concrete batch and time. -/
theorem calculateFreshnessPct_eq_spec_formula_witness :
    calculateFreshnessPct (mkBatch "s1w" "rice" "w1" 10 (some 0) (some 10))
        (5 * msPerHour) 30
      = specFreshnessPct (mkBatch "s1w" "rice" "w1" 10 (some 0) (some 10))
        (5 * msPerHour) 30 :=
  calculateFreshnessPct_eq_spec_formula.1
    (mkBatch "s1w" "rice" "w1" 10 (some 0) (some 10))
    (5 * msPerHour) 30 0 rfl (by norm_num [msPerHour])

/-- Counterexample for C3 as frozen: evaluated one hour before its
manufacture date, a batch with a one hour shelf life at 25 degrees gets
freshness 225 from the code, while the spec clamp formula gives 100. -/
theorem calculateFreshnessPct_clamp_counterexample :
    calculateFreshnessPct (mkBatch "c3" "rice" "w1" 1 (some msPerHour) (some 1)) 0 25 = 225
    ∧ specFreshnessPct (mkBatch "c3" "rice" "w1" 1 (some msPerHour) (some 1)) 0 25 = 100
    ∧ calculateFreshnessPct (mkBatch "c3" "rice" "w1" 1 (some msPerHour) (some 1)) 0 25
        ≠ specFreshnessPct (mkBatch "c3" "rice" "w1" 1 (some msPerHour) (some 1)) 0 25 := by
  refine ⟨?_, ?_, ?_⟩ <;>
    norm_num [calculateFreshnessPct, specFreshnessPct, remainingShelfLifeHours,
      safeRemainingShelfLifeHours, hasPositiveShelfLife, mkBatch, round2, jsRound,
      msPerHour, tempFactor, jmax, jmin]

/-- C4 (amended).  The value of calculateFreshnessPct is never negative, and
is at most 100 whenever the evaluation time is at or after the batch
manufacture date (or the batch has no manufacture date).  For evaluation
times strictly before the manufacture date the code can return values above
100, so the claimed two-sided bound holds only under that restriction. -/
theorem calculateFreshnessPct_bounds (b : Batch) (t temp : ℚ) :
    0 ≤ calculateFreshnessPct b t temp
    ∧ ((∀ m ∈ b.manufacture_date, m ≤ t) → calculateFreshnessPct b t temp ≤ 100) := by
  constructor
  · unfold calculateFreshnessPct
    cases hm : b.manufacture_date with
    | none => norm_num
    | some m =>
      cases hs : b.shelf_life_hours with
      | none => norm_num
      | some s =>
        by_cases hsp : s ≤ 0
        · simp [hsp]
        · simp only [if_neg hsp]
          rw [jmax_eq_max]
          exact round2_nonneg (le_max_left 0 _)
  · intro hmt
    unfold calculateFreshnessPct
    cases hm : b.manufacture_date with
    | none => norm_num
    | some m =>
      have hm' : m ≤ t := hmt m (by rw [hm]; rfl)
      cases hs : b.shelf_life_hours with
      | none => norm_num
      | some s =>
        by_cases hsp : s ≤ 0
        · simp [hsp]
        · push_neg at hsp
          simp only [if_neg (not_le.mpr hsp)]
          rw [jmax_eq_max]
          have hE : 0 ≤ (t - m) / msPerHour / s * 100 * tempFactor temp :=
            decayTerm_nonneg (by linarith) hsp
          exact round2_le_100 (max_le (by norm_num) (by linarith))

/-- Witness for C4 at a concrete batch, time and temperature. -/
theorem calculateFreshnessPct_bounds_witness :
    0 ≤ calculateFreshnessPct (mkBatch "s2w" "rice" "w1" 5 (some 0) (some 24))
        (12 * msPerHour) 25
    ∧ calculateFreshnessPct (mkBatch "s2w" "rice" "w1" 5 (some 0) (some 24))
        (12 * msPerHour) 25 ≤ 100 :=
  ⟨(calculateFreshnessPct_bounds (mkBatch "s2w" "rice" "w1" 5 (some 0) (some 24))
      (12 * msPerHour) 25).1,
   (calculateFreshnessPct_bounds (mkBatch "s2w" "rice" "w1" 5 (some 0) (some 24))
      (12 * msPerHour) 25).2 (by
        intro m hm
        simp only [mkBatch, Option.mem_def, Option.some.injEq] at hm
        subst hm
        norm_num [msPerHour])⟩

/-- Counterexample for C4 as frozen: a batch evaluated two hours before its
manufacture date at 30 degrees gets freshness 250, outside [0, 100]. -/
theorem calculateFreshnessPct_above_100_counterexample :
    calculateFreshnessPct (mkBatch "c4" "wheat" "w1" 1 (some (2 * msPerHour)) (some 2)) 0 30 = 250
    ∧ ¬ calculateFreshnessPct (mkBatch "c4" "wheat" "w1" 1 (some (2 * msPerHour)) (some 2)) 0 30
        ≤ 100 := by
  refine ⟨?_, ?_⟩ <;>
    norm_num [calculateFreshnessPct, specFreshnessPct, remainingShelfLifeHours,
      safeRemainingShelfLifeHours, hasPositiveShelfLife, mkBatch, round2, jsRound,
      msPerHour, tempFactor, jmax, jmin]

/-- A warehouse or NGO node record, with the fields the engine reads. -/
structure NodeR where
  id : String
  name : String
  state : Option String
  district : Option String
  regionId : Option String
  capacity_kg : Option ℚ
deriving DecidableEq, Repr

/-- A request line item. -/
structure RequestItem where
  foodType : String
  required_kg : ℚ
deriving DecidableEq, Repr

/-- A Request document. -/
structure Request where
  requestID : String
  requesterNode : String
  items : List RequestItem
  createdOn : Option ℚ
  dispatchTime : Option ℚ
deriving DecidableEq, Repr

/-- An NGO organization document; allocators join it to a node by name. -/
structure NgoOrg where
  id : String
  name : String
deriving DecidableEq, Repr

/-- One batch reference inside an Allocation record. -/
structure UsedBatch where
  batchId : String
  quantity : ℚ
  freshness : ℚ
deriving DecidableEq, Repr

/-- An Allocation record as produced by either allocator. -/
structure Allocation where
  requestId : String
  foodType : String
  required_kg : ℚ
  allocated_kg : ℚ
  warehouse : String
  distance_km : ℚ
  batches : List UsedBatch
  strategy : String
  dispatchTime : ℚ
deriving DecidableEq, Repr

/-- Stable insertion of x into a sorted list; lt a b means the JavaScript
comparator returns a negative number on (a, b). -/
def jsInsert (lt : α → α → Bool) (x : α) : List α → List α
  | [] => [x]
  | y :: ys => if lt x y then x :: y :: ys else y :: jsInsert lt x ys

/-- Array.prototype.sort with a comparator, modelled as a stable insertion
sort: elements are inserted left to right, each after the block of elements
the comparator does not order strictly after it. -/
def jsSortBy (lt : α → α → Bool) (l : List α) : List α :=
  l.foldl (fun acc x => jsInsert lt x acc) []

/-- Replace the quantity of the first batch with the given id
(unusedBatches[idx].quantity_kg = q after findIndex). -/
def setQuantityFirst : List Batch → String → ℚ → List Batch
  | [], _, _ => []
  | b :: rest, i, q =>
    if b.id = i then { b with quantity_kg := q } :: rest
    else b :: setQuantityFirst rest i q

/-- Reassign the current node of the first batch with the given id. -/
def setNodeFirst : List Batch → String → String → List Batch
  | [], _, _ => []
  | b :: rest, i, n =>
    if b.id = i then { b with currentNode := n } :: rest
    else b :: setNodeFirst rest i n

/-- Remove the first batch with the given id (splice after findIndex). -/
def removeFirstById : List Batch → String → List Batch
  | [], _ => []
  | b :: rest, i => if b.id = i then rest else b :: removeFirstById rest i

/-- Subtract from the quantity of the first batch with the given id
(unusedBatches[idx].quantity_kg -= amount after findIndex). -/
def subQuantityFirst : List Batch → String → ℚ → List Batch
  | [], _, _ => []
  | b :: rest, i, d =>
    if b.id = i then { b with quantity_kg := b.quantity_kg - d } :: rest
    else b :: subQuantityFirst rest i d

/-- A transfer suggestion from the external planner, already stringified
(suggestion.source.mongoId, suggestion.target.mongoId). -/
structure TransferSuggestion where
  sourceId : Option String
  targetId : Option String
  suggested_quantity_kg : Option ℚ
  distance_km : Option ℚ
deriving DecidableEq, Repr

/-- coercePositiveNumber from simulationService.js: a finite positive number,
else null. -/
def coercePositiveNumber (v : Option ℚ) : Option ℚ :=
  match v with
  | some n => if 0 < n then some n else none
  | none => none

/-- The comparator of takeFromSource: ascending remaining shelf life (none
models Infinity), ties broken by descending quantity. -/
def xferLt (when : ℚ) (a b : Batch) : Bool :=
  match safeRemainingShelfLifeHours a when, safeRemainingShelfLifeHours b when with
  | some ra, some rb =>
    if ra = rb then decide (b.quantity_kg < a.quantity_kg) else decide (ra < rb)
  | some _, none => true
  | none, some _ => false
  | none, none => decide (b.quantity_kg < a.quantity_kg)

/-- The greedy picking loop of takeFromSource over the sorted candidates. -/
def pickGreedy : List Batch → ℚ → List (Batch × ℚ)
  | [], _ => []
  | b :: rest, remaining =>
    if remaining ≤ 0 then []
    else if b.quantity_kg ≤ 0 then pickGreedy rest remaining
    else
      let takeQty := jmin b.quantity_kg remaining
      (b, takeQty) :: pickGreedy rest (remaining - takeQty)

/-- takeFromSource from applyWarehouseTransfersToBatches: stored batches with
positive quantity at the source, sorted closest-to-expiry first (larger lots
first on ties), consumed greedily up to the needed quantity. -/
def takeFromSource (working : List Batch) (sourceId : String) (qtyNeeded : ℚ)
    (when : ℚ) : List (Batch × ℚ) :=
  if qtyNeeded ≤ 0 then []
  else
    pickGreedy
      (jsSortBy (xferLt when)
        (working.filter (fun b =>
          b.status = BatchStatus.stored && !b.currentNode.isEmpty &&
          b.currentNode = sourceId && 0 < b.quantity_kg)))
      qtyNeeded

/-- The epsilon of the whole-batch-move test (1e-9). -/
def epsSplit : ℚ := 1 / 1000000000

/-- The synthetic identifier of a transfer-split child batch. -/
def xferChildId (parentId : String) (seq : ℕ) : String :=
  parentId ++ "-xfer-" ++ toString seq

/-- The split performed when a transfer takes only part of a batch: the
retained parent keeps available - takeQty, and a child carrying takeQty is
pushed, inheriting every other field of the parent and moving to the target
node under a synthetic derived identifier. -/
def xferSplit (working : List Batch) (b : Batch) (takeQty : ℚ)
    (targetId : String) (seq : ℕ) : List Batch :=
  setQuantityFirst working b.id (b.quantity_kg - takeQty)
    ++ [{ b with
          id := xferChildId b.id seq
          currentNode := targetId
          quantity_kg := takeQty }]

/-- The per-suggestion application loop over picked (batch, takeQty) pairs:
move the whole batch when takeQty reaches available - 1e-9, otherwise split. -/
def applyPicks (targetId : String) : List (Batch × ℚ) → List Batch → ℕ → List Batch × ℕ
  | [], working, seq => (working, seq)
  | (b, takeQty) :: rest, working, seq =>
    if takeQty ≤ 0 ∨ b.quantity_kg ≤ 0 then applyPicks targetId rest working seq
    else if b.quantity_kg - epsSplit ≤ takeQty then
      applyPicks targetId rest (setNodeFirst working b.id targetId) seq
    else
      applyPicks targetId rest (xferSplit working b takeQty targetId (seq + 1)) (seq + 1)

/-- An applied transfer as recorded in the planner trace. -/
structure AppliedTransfer where
  sourceWarehouseId : String
  targetWarehouseId : String
  suggested_quantity_kg : ℚ
  applied_quantity_kg : ℚ
deriving DecidableEq, Repr

/-- The suggestion loop of applyWarehouseTransfersToBatches: skip a
suggestion whose source, target or positive quantity is missing or whose
source equals its target; otherwise pick source batches, apply moves and
splits, and record the applied transfer with the rounded total taken. -/
def applyTransfersGo (when : ℚ) : List TransferSuggestion → List Batch →
    List AppliedTransfer → ℕ → List Batch × List AppliedTransfer
  | [], working, applied, _ => (working, applied)
  | s :: rest, working, applied, seq =>
    match s.sourceId, s.targetId, coercePositiveNumber s.suggested_quantity_kg with
    | some sourceId, some targetId, some suggestedQty =>
      if sourceId = targetId then applyTransfersGo when rest working applied seq
      else
        let picked := takeFromSource working sourceId suggestedQty when
        let totalTaken := (picked.map (fun p => p.2)).sum
        if totalTaken ≤ 0 then applyTransfersGo when rest working applied seq
        else
          let ws := applyPicks targetId picked working seq
          applyTransfersGo when rest ws.1
            (applied ++
              [{ sourceWarehouseId := sourceId
                 targetWarehouseId := targetId
                 suggested_quantity_kg := suggestedQty
                 applied_quantity_kg := round2 totalTaken }]) ws.2
    | _, _, _ => applyTransfersGo when rest working applied seq

/-- applyWarehouseTransfersToBatches from simulationService.js. -/
def applyWarehouseTransfersToBatches (batches : List Batch)
    (transfers : List TransferSuggestion) (currentDate : ℚ) :
    List Batch × List AppliedTransfer :=
  applyTransfersGo currentDate transfers batches [] 0

/-- One allocated batch entry of createShipment. -/
structure ShipAllocEntry where
  batchId : String
  quantity : ℚ
  isSplit : Bool
  parentBatchId : Option String
deriving DecidableEq, Repr

/-- The child batch document created by the createShipment split: quantity is
the still-needed amount, every perishability field is copied from the parent,
and the parent is referenced. -/
def shipSplitChild (b : Batch) (childId : String) (k : ℚ) : Batch :=
  { id := childId
    foodType := b.foodType
    quantity_kg := k
    original_quantity_kg := b.original_quantity_kg
    originNode := b.originNode
    currentNode := b.currentNode
    status := BatchStatus.stored
    manufacture_date := b.manufacture_date
    shelf_life_hours := b.shelf_life_hours
    createdAt := none
    initial_temp_c := b.initial_temp_c
    freshnessPct := b.freshnessPct
    parentBatchId := some b.id }

/-- The batch allocation loop of createShipment over the FIFO-sorted
available batches: use a batch whole when it exactly covers or is smaller
than the remainder, split it when it is strictly larger.  childId is the
database-generated identifier of the split child.  Returns the allocated
entries, the uncovered remainder, and the updated batch documents. -/
def shipLoop (childId : String) : List Batch → ℚ →
    List ShipAllocEntry × ℚ × List Batch
  | [], remaining => ([], remaining, [])
  | b :: rest, remaining =>
    if remaining ≤ 0 then ([], remaining, b :: rest)
    else if b.quantity_kg = remaining then
      ([{ batchId := b.id, quantity := remaining, isSplit := false, parentBatchId := none }],
        0, b :: rest)
    else if remaining < b.quantity_kg then
      ([{ batchId := childId, quantity := remaining, isSplit := true, parentBatchId := some b.id }],
        0,
        { b with quantity_kg := b.quantity_kg - remaining }
          :: rest ++ [shipSplitChild b childId remaining])
    else
      let r := shipLoop childId rest (remaining - b.quantity_kg)
      ({ batchId := b.id, quantity := b.quantity_kg, isSplit := false, parentBatchId := none } :: r.1,
        r.2.1, b :: r.2.2)

/-- The Mongo sort key of the createShipment batch query: manufacture_date
ascending, missing dates first. -/
def shipLt (a b : Batch) : Bool :=
  match a.manufacture_date, b.manufacture_date with
  | none, none => false
  | none, some _ => true
  | some _, none => false
  | some ma, some mb => decide (ma < mb)

/-- The pure allocation core of createShipment for one item: reject a
non-positive quantity, query stored batches with positive quantity of the
food type at the source node sorted oldest first, run the allocation loop,
and fail when inventory is insufficient. -/
def createShipmentAllocate (pool : List Batch) (fromNodeId foodType : String)
    (quantity_kg : ℚ) (childId : String) :
    Option (List ShipAllocEntry × List Batch) :=
  if quantity_kg ≤ 0 then none
  else
    let avail := jsSortBy shipLt (pool.filter (fun b =>
      b.currentNode = fromNodeId && b.foodType = foodType &&
      b.status = BatchStatus.stored && 0 < b.quantity_kg))
    let r := shipLoop childId avail quantity_kg
    if 0 < r.2.1 then none else some (r.1, r.2.2)

theorem jsInsert_perm (lt : α → α → Bool) (x : α) (l : List α) :
    (jsInsert lt x l).Perm (x :: l) := by
  induction l with
  | nil => simp [jsInsert]
  | cons y ys ih =>
    by_cases h : lt x y
    · simp [jsInsert, h]
    · simp only [jsInsert, if_neg h]
      exact (ih.cons y).trans (List.Perm.swap x y ys)

theorem jsSortBy_perm (lt : α → α → Bool) (l : List α) : (jsSortBy lt l).Perm l := by
  suffices h : ∀ (l : List α) (acc : List α),
      (l.foldl (fun acc x => jsInsert lt x acc) acc).Perm (acc ++ l) by
    simpa using h l []
  intro l
  induction l with
  | nil => intro acc; simp
  | cons x xs ih =>
    intro acc
    have h1 := ih (jsInsert lt x acc)
    have h2 : (jsInsert lt x acc ++ xs).Perm ((x :: acc) ++ xs) :=
      (jsInsert_perm lt x acc).append_right xs
    have h3 : ((x :: acc) ++ xs).Perm (acc ++ x :: xs) := List.perm_middle.symm
    exact (h1.trans h2).trans h3

theorem jsInsert_chain (lt : α → α → Bool)
    (hasym : ∀ a b, lt a b = true → lt b a = false) (x : α) (l : List α)
    (h : List.Chain' (fun a b => lt b a = false) l) :
    List.Chain' (fun a b => lt b a = false) (jsInsert lt x l) := by
  induction l with
  | nil => simp [jsInsert]
  | cons y ys ih =>
    by_cases hxy : lt x y
    · simp only [jsInsert, if_pos hxy]
      exact List.Chain'.cons (hasym x y hxy) h
    · simp only [jsInsert, if_neg hxy]
      have htail : List.Chain' (fun a b => lt b a = false) ys := h.tail
      have hrec := ih htail
      cases ys with
      | nil =>
        simp only [jsInsert]
        exact List.Chain'.cons (Bool.eq_false_iff.mpr hxy) (List.chain'_singleton _)
      | cons z zs =>
        by_cases hxz : lt x z
        · simp only [jsInsert, if_pos hxz] at hrec ⊢
          exact List.Chain'.cons (Bool.eq_false_iff.mpr hxy) hrec
        · simp only [jsInsert, if_neg hxz] at hrec ⊢
          exact List.Chain'.cons (List.chain'_cons.mp h).1 hrec

theorem jsSortBy_chain (lt : α → α → Bool)
    (hasym : ∀ a b, lt a b = true → lt b a = false) (l : List α) :
    List.Chain' (fun a b => lt b a = false) (jsSortBy lt l) := by
  suffices h : ∀ (l acc : List α), List.Chain' (fun a b => lt b a = false) acc →
      List.Chain' (fun a b => lt b a = false)
        (l.foldl (fun acc x => jsInsert lt x acc) acc) by
    exact h l [] List.chain'_nil
  intro l
  induction l with
  | nil => intro acc hacc; exact hacc
  | cons x xs ih =>
    intro acc hacc
    exact ih (jsInsert lt x acc) (jsInsert_chain lt hasym x acc hacc)

theorem find?_decomp {p : α → Bool} {l : List α} {x : α}
    (h : List.find? p l = some x) :
    ∃ l1 l2, l = l1 ++ x :: l2 ∧ (∀ y ∈ l1, p y = false) ∧ p x = true := by
  induction l with
  | nil => cases h
  | cons a as ih =>
    by_cases ha : p a
    · rw [List.find?_cons_of_pos _ ha] at h
      have hax : a = x := Option.some.inj h
      subst hax
      exact ⟨[], as, by simp, by simp, ha⟩
    · have hfalse : p a = false := Bool.eq_false_iff.mpr ha
      rw [List.find?_cons_of_neg _ ha] at h
      rcases ih h with ⟨l1, l2, hsplit, hall, hx⟩
      refine ⟨a :: l1, l2, by simp [hsplit], ?_, hx⟩
      intro y hy
      rcases List.mem_cons.mp hy with rfl | hy2
      · exact hfalse
      · exact hall y hy2

theorem setQuantityFirst_mem (l : List Batch) (i : String) (q : ℚ)
    (h : ∃ w ∈ l, w.id = i) :
    ∃ v ∈ setQuantityFirst l i q, v.id = i ∧ v.quantity_kg = q := by
  induction l with
  | nil =>
    rcases h with ⟨w, hw, _⟩
    cases hw
  | cons b rest ih =>
    by_cases hb : b.id = i
    · refine ⟨{ b with quantity_kg := q }, ?_, hb, rfl⟩
      simp [setQuantityFirst, hb]
    · rcases h with ⟨w, hw, hwi⟩
      rcases List.mem_cons.mp hw with h1 | h2
      · exact absurd (h1 ▸ hwi) hb
      · rcases ih ⟨w, h2, hwi⟩ with ⟨v, hv, hvp⟩
        refine ⟨v, ?_, hvp⟩
        simp [setQuantityFirst, hb, hv]

/-- C2.  Batch splits conserve mass exactly and the child inherits all
perishability attributes unchanged.  First conjunct: during transfer
application, a picked pair taking 0 < k strictly below the parent quantity
minus the 1e-9 whole-move epsilon goes through xferSplit.  Second conjunct:
xferSplit retains a batch with the parent id holding exactly Q - k and
appends a child holding exactly k whose food type, manufacture date, shelf
life and initial temperature equal the parent ones, with retained plus child
equal to Q.  Third conjunct: the createShipment loop, when a batch of
quantity Q is strictly larger than the needed 0 < k, keeps the parent at
exactly Q - k and creates a child of exactly k inheriting the same
perishability fields. -/
theorem batch_split_mass_conservation :
    (∀ (working : List Batch) (b : Batch) (k : ℚ) (targetId : String)
        (seq : ℕ) (rest : List (Batch × ℚ)),
      0 < k → k < b.quantity_kg - epsSplit →
      applyPicks targetId ((b, k) :: rest) working seq
        = applyPicks targetId rest (xferSplit working b k targetId (seq + 1)) (seq + 1))
    ∧ (∀ (working : List Batch) (b : Batch) (k : ℚ) (targetId : String) (seq : ℕ),
        b ∈ working →
        ∃ parent ∈ xferSplit working b k targetId seq,
          parent.id = b.id ∧ parent.quantity_kg = b.quantity_kg - k
          ∧ ∃ child ∈ xferSplit working b k targetId seq,
              child.quantity_kg = k
              ∧ child.foodType = b.foodType
              ∧ child.manufacture_date = b.manufacture_date
              ∧ child.shelf_life_hours = b.shelf_life_hours
              ∧ child.initial_temp_c = b.initial_temp_c
              ∧ parent.quantity_kg + child.quantity_kg = b.quantity_kg)
    ∧ (∀ (childId : String) (b : Batch) (rest : List Batch) (k : ℚ),
        0 < k → k < b.quantity_kg →
        shipLoop childId (b :: rest) k
          = ([{ batchId := childId, quantity := k, isSplit := true,
                parentBatchId := some b.id }],
             0,
             { b with quantity_kg := b.quantity_kg - k }
               :: rest ++ [shipSplitChild b childId k])
        ∧ (b.quantity_kg - k) + (shipSplitChild b childId k).quantity_kg = b.quantity_kg
        ∧ (shipSplitChild b childId k).foodType = b.foodType
        ∧ (shipSplitChild b childId k).manufacture_date = b.manufacture_date
        ∧ (shipSplitChild b childId k).shelf_life_hours = b.shelf_life_hours
        ∧ (shipSplitChild b childId k).initial_temp_c = b.initial_temp_c) := by
  refine ⟨?_, ?_, ?_⟩
  · intro working b k targetId seq rest hk hlt
    have heps : (0 : ℚ) < epsSplit := by norm_num [epsSplit]
    have hq : ¬ (k ≤ 0 ∨ b.quantity_kg ≤ 0) := by
      push_neg
      constructor
      · exact hk
      · linarith
    have hmove : ¬ (b.quantity_kg - epsSplit ≤ k) := by linarith
    simp only [applyPicks]
    rw [if_neg hq, if_neg hmove]
  · intro working b k targetId seq hmem
    rcases setQuantityFirst_mem working b.id (b.quantity_kg - k) ⟨b, hmem, rfl⟩
      with ⟨parent, hp, hpid, hpq⟩
    refine ⟨parent, ?_, hpid, hpq, ?_⟩
    · exact List.mem_append_left _ hp
    · refine ⟨{ b with
          id := xferChildId b.id seq
          currentNode := targetId
          quantity_kg := k }, ?_, rfl, rfl, rfl, rfl, rfl, ?_⟩
      · exact List.mem_append_right _ (List.mem_singleton.mpr rfl)
      · rw [hpq]; ring
  · intro childId b rest k hk hlt
    refine ⟨?_, ?_, rfl, rfl, rfl, rfl⟩
    · simp only [shipLoop]
      rw [if_neg (not_le.mpr hk), if_neg (by exact fun h => absurd h (ne_of_gt hlt)),
        if_pos hlt]
    · simp only [shipSplitChild]
      ring

/-- Witness for C2: a 100 kg batch from which 30 kg is taken, through the
transfer split branch and the shipment split loop. -/
theorem batch_split_mass_conservation_witness :
    applyPicks "w2" [(mkBatch "p1" "rice" "w1" 100 (some 0) (some 48), 30)]
        [mkBatch "p1" "rice" "w1" 100 (some 0) (some 48)] 0
      = applyPicks "w2" []
          (xferSplit [mkBatch "p1" "rice" "w1" 100 (some 0) (some 48)]
            (mkBatch "p1" "rice" "w1" 100 (some 0) (some 48)) 30 "w2" 1) 1
    ∧ shipLoop "c1" [mkBatch "p2" "rice" "w1" 100 (some 0) (some 48)] 30
        = ([{ batchId := "c1", quantity := 30, isSplit := true,
              parentBatchId := some (mkBatch "p2" "rice" "w1" 100 (some 0) (some 48)).id }],
           0,
           { mkBatch "p2" "rice" "w1" 100 (some 0) (some 48) with
               quantity_kg := (mkBatch "p2" "rice" "w1" 100 (some 0) (some 48)).quantity_kg - 30 }
             :: [] ++ [shipSplitChild (mkBatch "p2" "rice" "w1" 100 (some 0) (some 48)) "c1" 30]) :=
  ⟨batch_split_mass_conservation.1
      [mkBatch "p1" "rice" "w1" 100 (some 0) (some 48)]
      (mkBatch "p1" "rice" "w1" 100 (some 0) (some 48)) 30 "w2" 0 []
      (by norm_num) (by norm_num [mkBatch, epsSplit]),
   (batch_split_mass_conservation.2.2 "c1"
      (mkBatch "p2" "rice" "w1" 100 (some 0) (some 48)) [] 30
      (by norm_num) (by norm_num [mkBatch])).1⟩

/-- Options of an allocation run: the optional [floor, ceiling] simulation
window for dispatch timestamps. -/
structure AllocOptions where
  dispatchTimeFloor : Option ℚ
  dispatchTimeCeil : Option ℚ
deriving DecidableEq, Repr

/-- Clamp a dispatch time to the simulation window. -/
def clampDispatch (opts : AllocOptions) (t : ℚ) : ℚ :=
  let t1 := match opts.dispatchTimeFloor with
    | some f => if t < f then f else t
    | none => t
  match opts.dispatchTimeCeil with
  | some c => if c < t1 then c else t1
  | none => t1

/-- The dispatch time allocateRegular derives for a request:
request.dispatchTime, else createdOn, else the current time, clamped. -/
def regularDispatchTime (opts : AllocOptions) (now : ℚ) (r : Request) : ℚ :=
  clampDispatch opts ((r.dispatchTime.orElse (fun _ => r.createdOn)).getD now)

/-- estimateTravelHours: distance at 40 km/h plus a 0.5h rest break per full
4h of driving. -/
def estimateTravelHours (distanceKm : ℚ) : ℚ :=
  distanceKm / 40 + (⌊distanceKm / 40 / 4⌋ : ℚ) * (1/2)

/-- Availability by dispatch: the manufacture date, or else the creation
date, is not after the dispatch time (missing both means available). -/
def availableBy (b : Batch) (dispatchTime : ℚ) : Bool :=
  match b.manufacture_date.orElse (fun _ => b.createdAt) with
  | some a => decide (a ≤ dispatchTime)
  | none => true

/-- Baseline eligibility of a batch at a warehouse: requested food type,
stored, located there, available by the dispatch time, positive remaining
shelf life (infinite counts) and positive freshness at dispatch. -/
def regularEligible (item : RequestItem) (warehouseId : String) (t : ℚ)
    (b : Batch) : Bool :=
  b.foodType = item.foodType && b.status = BatchStatus.stored &&
  b.currentNode = warehouseId && availableBy b t &&
  (match safeRemainingShelfLifeHours b t with
   | some h => decide (0 < h)
   | none => true) &&
  decide (0 < calculateFreshnessPct b t 25)

/-- A candidate entry of the baseline batch ranking. -/
structure CandR where
  batch : Batch
  remainingHours : Option ℚ
  freshnessAtDispatch : ℚ
deriving DecidableEq, Repr

/-- The tie-break key of the baseline comparator: manufacture time, else
creation time, else 0. -/
def regularTieTime (b : Batch) : ℚ :=
  match b.manufacture_date with
  | some m => m
  | none =>
    match b.createdAt with
    | some c => c
    | none => 0

/-- The baseline batch comparator: ascending remaining shelf life when both
values are finite and different, otherwise ascending manufacture (or
creation) time — so a candidate with infinite remaining life is ordered by
time, not pushed last. -/
def regularLt (a b : CandR) : Bool :=
  match a.remainingHours, b.remainingHours with
  | some ra, some rb =>
    if ra = rb then decide (regularTieTime a.batch < regularTieTime b.batch)
    else decide (ra < rb)
  | _, _ => decide (regularTieTime a.batch < regularTieTime b.batch)

/-- The ranked candidate entries of the baseline allocator at a warehouse. -/
def regularCandEntries (pool : List Batch) (item : RequestItem)
    (warehouseId : String) (t : ℚ) : List CandR :=
  jsSortBy regularLt
    ((pool.filter (regularEligible item warehouseId t)).map (fun b =>
      { batch := b
        remainingHours := safeRemainingShelfLifeHours b t
        freshnessAtDispatch := calculateFreshnessPct b t 25 }))

/-- The ranked candidate batches of the baseline allocator at a warehouse. -/
def regularCandidates (pool : List Batch) (item : RequestItem)
    (warehouseId : String) (t : ℚ) : List Batch :=
  (regularCandEntries pool item warehouseId t).map (fun c => c.batch)

/-- batch.freshnessPct || 100 as recorded in baseline allocation entries. -/
def recordedFreshness (b : Batch) : ℚ :=
  match b.freshnessPct with
  | some f => if f = 0 then 100 else f
  | none => 100

/-- The greedy consumption loop shared by both allocators: take
min(batch quantity, remaining) from each candidate in order, removing the
batch from the pool when fully consumed and reducing it otherwise; fresh
computes the freshness recorded in the entry. -/
def consumeBatches (fresh : Batch → ℚ) : List Batch → ℚ → List Batch →
    List UsedBatch × ℚ × List Batch
  | [], remaining, pool => ([], remaining, pool)
  | b :: rest, remaining, pool =>
    if remaining ≤ 0 then ([], remaining, pool)
    else
      let q := jmin b.quantity_kg remaining
      let pool2 := if b.quantity_kg ≤ q then removeFirstById pool b.id
                   else subQuantityFirst pool b.id q
      let r := consumeBatches fresh rest (remaining - q) pool2
      ({ batchId := b.id, quantity := q, freshness := fresh b } :: r.1, r.2.1, r.2.2)

/-- Warehouses paired with their distance to the NGO node, sorted ascending. -/
def warehousesByDistance (dist : NodeR → NodeR → ℚ) (ngoNode : NodeR)
    (warehouses : List NodeR) : List (NodeR × ℚ) :=
  jsSortBy (fun a b => decide (a.2 < b.2))
    (warehouses.map (fun w => (w, dist ngoNode w)))

/-- The nearest warehouse having at least one eligible batch. -/
def pickSourceWarehouse (sorted : List (NodeR × ℚ)) (pool : List Batch)
    (item : RequestItem) (t : ℚ) : Option (NodeR × ℚ) :=
  sorted.find? (fun wd => pool.any (regularEligible item wd.1.id t))

/-- The per-line-item step of allocateRegular: nearest eligible warehouse,
ranked candidates, greedy consumption, and an Allocation record only when
the allocated total is positive. -/
def regularItemStep (sorted : List (NodeR × ℚ)) (requestId : String) (t : ℚ)
    (pool : List Batch) (item : RequestItem) : Option Allocation × List Batch :=
  match pickSourceWarehouse sorted pool item t with
  | none => (none, pool)
  | some wd =>
    let cands := regularCandidates pool item wd.1.id t
    let r := consumeBatches recordedFreshness cands item.required_kg pool
    let allocatedKg := item.required_kg - r.2.1
    if 0 < allocatedKg then
      (some { requestId := requestId
              foodType := item.foodType
              required_kg := item.required_kg
              allocated_kg := allocatedKg
              warehouse := wd.1.id
              distance_km := wd.2
              batches := r.1
              strategy := "regular"
              dispatchTime := t }, r.2.2)
    else (none, r.2.2)

/-- The item loop of allocateRegular for one request. -/
def regularItemsLoop (sorted : List (NodeR × ℚ)) (requestId : String) (t : ℚ) :
    List RequestItem → List Batch → List Allocation × List Batch
  | [], pool => ([], pool)
  | item :: rest, pool =>
    let r := regularItemStep sorted requestId t pool item
    let r2 := regularItemsLoop sorted requestId t rest r.2
    ((match r.1 with
      | some a => a :: r2.1
      | none => r2.1), r2.2)

/-- The request loop of allocateRegular: resolve the requesting NGO
organization and its node by name, skip the request when either lookup or
every warehouse is missing, then allocate its items. -/
def regularRequestsLoop (dist : NodeR → NodeR → ℚ) (now : ℚ)
    (warehouses ngos : List NodeR) (ngoOrgs : List NgoOrg) (opts : AllocOptions) :
    List Request → List Batch → List Allocation × List Batch
  | [], pool => ([], pool)
  | r :: rest, pool =>
    let t := regularDispatchTime opts now r
    match ngoOrgs.find? (fun o => o.id = r.requesterNode) with
    | none => regularRequestsLoop dist now warehouses ngos ngoOrgs opts rest pool
    | some org =>
      match ngos.find? (fun n => n.name = org.name) with
      | none => regularRequestsLoop dist now warehouses ngos ngoOrgs opts rest pool
      | some ngoNode =>
        let sorted := warehousesByDistance dist ngoNode warehouses
        if sorted.isEmpty then
          regularRequestsLoop dist now warehouses ngos ngoOrgs opts rest pool
        else
          let ri := regularItemsLoop sorted r.requestID t r.items pool
          let r2 := regularRequestsLoop dist now warehouses ngos ngoOrgs opts rest ri.2
          (ri.1 ++ r2.1, r2.2)

/-- allocateRegular from simulationService.js, over a haversine-distance
oracle dist and a current-time fallback now. -/
def allocateRegular (dist : NodeR → NodeR → ℚ) (now : ℚ) (requests : List Request)
    (batches : List Batch) (warehouses ngos : List NodeR) (ngoOrgs : List NgoOrg)
    (opts : AllocOptions) : List Allocation :=
  (regularRequestsLoop dist now warehouses ngos ngoOrgs opts requests batches).1

theorem consumeBatches_break (fresh : Batch → ℚ) (cands : List Batch)
    (remaining : ℚ) (pool : List Batch) (h : remaining ≤ 0) :
    consumeBatches fresh cands remaining pool = ([], remaining, pool) := by
  cases cands with
  | nil => rfl
  | cons b rest => simp [consumeBatches, h]

theorem jmin_le_right (a b : ℚ) : jmin a b ≤ b := by
  rw [jmin_eq_min]; exact min_le_right a b

theorem consumeBatches_remaining_nonneg (fresh : Batch → ℚ) :
    ∀ (cands : List Batch) (remaining : ℚ) (pool : List Batch), 0 ≤ remaining →
      0 ≤ (consumeBatches fresh cands remaining pool).2.1 := by
  intro cands
  induction cands with
  | nil => intro remaining pool h; simpa [consumeBatches] using h
  | cons b rest ih =>
    intro remaining pool h
    by_cases hr : remaining ≤ 0
    · simpa [consumeBatches, hr] using h
    · simp only [consumeBatches, if_neg hr]
      exact ih _ _ (by linarith [jmin_le_right b.quantity_kg remaining])

theorem consumeBatches_alloc_eq_sum (fresh : Batch → ℚ) :
    ∀ (cands : List Batch) (remaining : ℚ) (pool : List Batch),
      (((consumeBatches fresh cands remaining pool).1.map (fun u => u.quantity)).sum)
        = remaining - (consumeBatches fresh cands remaining pool).2.1 := by
  intro cands
  induction cands with
  | nil => intro remaining pool; simp [consumeBatches]
  | cons b rest ih =>
    intro remaining pool
    by_cases hr : remaining ≤ 0
    · simp [consumeBatches, hr]
    · simp only [consumeBatches, if_neg hr, List.map_cons, List.sum_cons]
      rw [ih]
      ring

theorem consumeBatches_remaining_formula (fresh : Batch → ℚ) :
    ∀ (cands : List Batch) (remaining : ℚ) (pool : List Batch),
      (∀ b ∈ cands, 0 ≤ b.quantity_kg) → 0 ≤ remaining →
      (consumeBatches fresh cands remaining pool).2.1
        = jmax 0 (remaining - (cands.map (fun b => b.quantity_kg)).sum) := by
  intro cands
  induction cands with
  | nil =>
    intro remaining pool _ h
    simp only [consumeBatches, List.map_nil, List.sum_nil, sub_zero]
    rw [jmax_eq_max]
    exact (max_eq_right h).symm
  | cons b rest ih =>
    intro remaining pool hq h
    have hb : 0 ≤ b.quantity_kg := hq b (List.mem_cons_self b rest)
    have hrest : ∀ x ∈ rest, 0 ≤ x.quantity_kg := fun x hx =>
      hq x (List.mem_cons_of_mem b hx)
    have hsum : 0 ≤ (rest.map (fun b => b.quantity_kg)).sum := by
      apply List.sum_nonneg
      intro x hx
      rcases List.mem_map.mp hx with ⟨y, hy, rfl⟩
      exact hrest y hy
    by_cases hr : remaining ≤ 0
    · have h0 : remaining = 0 := le_antisymm hr h
      subst h0
      rw [consumeBatches_break _ _ _ _ le_rfl]
      simp only [List.map_cons, List.sum_cons]
      rw [jmax_eq_max, max_eq_left (by linarith)]
    · push_neg at hr
      simp only [consumeBatches, if_neg (not_le.mpr hr), List.map_cons, List.sum_cons]
      rw [ih _ _ hrest (by linarith [jmin_le_right b.quantity_kg remaining])]
      by_cases hqr : b.quantity_kg ≤ remaining
      · rw [show jmin b.quantity_kg remaining = b.quantity_kg from if_pos hqr]
        ring_nf
      · push_neg at hqr
        rw [show jmin b.quantity_kg remaining = remaining from if_neg (not_le.mpr hqr)]
        have h1 : remaining - remaining - (rest.map (fun b => b.quantity_kg)).sum ≤ 0 := by
          linarith
        have h2 : remaining - (b.quantity_kg + (rest.map (fun b => b.quantity_kg)).sum) ≤ 0 := by
          linarith
        rw [jmax_eq_max, jmax_eq_max, max_eq_left h1, max_eq_left h2]

theorem consumeBatches_used_mem (fresh : Batch → ℚ) :
    ∀ (cands : List Batch) (remaining : ℚ) (pool : List Batch),
      ∀ u ∈ (consumeBatches fresh cands remaining pool).1,
        ∃ b ∈ cands, u.batchId = b.id := by
  intro cands
  induction cands with
  | nil => intro remaining pool u hu; simp [consumeBatches] at hu
  | cons b rest ih =>
    intro remaining pool u hu
    by_cases hr : remaining ≤ 0
    · simp [consumeBatches, hr] at hu
    · simp only [consumeBatches, if_neg hr] at hu
      rcases List.mem_cons.mp hu with rfl | hu2
      · exact ⟨b, List.mem_cons_self b rest, rfl⟩
      · rcases ih _ _ u hu2 with ⟨c, hc, hid⟩
        exact ⟨c, List.mem_cons_of_mem b hc, hid⟩

theorem consumeBatches_used_ids_front (fresh : Batch → ℚ) :
    ∀ (cands : List Batch) (remaining : ℚ) (pool : List Batch),
      (consumeBatches fresh cands remaining pool).1.map (fun u => u.batchId)
        = (cands.take (consumeBatches fresh cands remaining pool).1.length).map
            (fun b => b.id) := by
  intro cands
  induction cands with
  | nil => intro remaining pool; simp [consumeBatches]
  | cons b rest ih =>
    intro remaining pool
    by_cases hr : remaining ≤ 0
    · simp [consumeBatches, hr]
    · simp only [consumeBatches, if_neg hr, List.map_cons, List.length_cons,
        List.take_succ_cons]
      rw [ih]

theorem regularLt_asym (a b : CandR) :
    regularLt a b = true → regularLt b a = false := by
  intro h
  cases ha : a.remainingHours with
  | none =>
    cases hb : b.remainingHours with
    | none =>
      simp only [regularLt, ha, hb, decide_eq_true_eq] at h
      simp only [regularLt, ha, hb, decide_eq_false_iff_not]
      exact not_lt.mpr (le_of_lt h)
    | some rb =>
      simp only [regularLt, ha, hb, decide_eq_true_eq] at h
      simp only [regularLt, ha, hb, decide_eq_false_iff_not]
      exact not_lt.mpr (le_of_lt h)
  | some ra =>
    cases hb : b.remainingHours with
    | none =>
      simp only [regularLt, ha, hb, decide_eq_true_eq] at h
      simp only [regularLt, ha, hb, decide_eq_false_iff_not]
      exact not_lt.mpr (le_of_lt h)
    | some rb =>
      simp only [regularLt, ha, hb] at h ⊢
      by_cases heq : ra = rb
      · subst heq
        simp only [eq_self_iff_true, if_true, decide_eq_true_eq] at h
        simp only [eq_self_iff_true, if_true, decide_eq_false_iff_not]
        exact not_lt.mpr (le_of_lt h)
      · simp only [if_neg heq, decide_eq_true_eq] at h
        simp only [if_neg (fun hba => heq (Eq.symm hba)), decide_eq_false_iff_not]
        exact not_lt.mpr (le_of_lt h)

theorem chain'_le_of_mem (x : NodeR × ℚ) (l : List (NodeR × ℚ))
    (h : List.Chain' (fun a b : NodeR × ℚ => a.2 ≤ b.2) (x :: l)) :
    ∀ y ∈ l, x.2 ≤ y.2 := by
  induction l generalizing x with
  | nil => intro y hy; cases hy
  | cons z rest ih =>
    intro y hy
    have hxz : x.2 ≤ z.2 := (List.chain'_cons.mp h).1
    rcases List.mem_cons.mp hy with rfl | hy2
    · exact hxz
    · exact le_trans hxz (ih z (List.chain'_cons.mp h).2 y hy2)

theorem chain'_drop_append {R : α → α → Prop} :
    ∀ (l1 : List α) (x : α) (l2 : List α),
      List.Chain' R (l1 ++ x :: l2) → List.Chain' R (x :: l2) := by
  intro l1
  induction l1 with
  | nil => intro x l2 h; exact h
  | cons a rest ih =>
    intro x l2 h
    exact ih x l2 h.tail

theorem regularCandEntries_mem {pool : List Batch} {item : RequestItem}
    {wid : String} {t : ℚ} {c : CandR}
    (hc : c ∈ regularCandEntries pool item wid t) :
    c.batch ∈ pool ∧ regularEligible item wid t c.batch = true
      ∧ c.remainingHours = safeRemainingShelfLifeHours c.batch t := by
  unfold regularCandEntries at hc
  have hc2 := (jsSortBy_perm _ _).mem_iff.mp hc
  rcases List.mem_map.mp hc2 with ⟨b0, hb0, rfl⟩
  have hf := List.mem_filter.mp hb0
  exact ⟨hf.1, hf.2, rfl⟩

theorem regularCandidates_mem {pool : List Batch} {item : RequestItem}
    {wid : String} {t : ℚ} {b : Batch}
    (hb : b ∈ regularCandidates pool item wid t) :
    b ∈ pool ∧ regularEligible item wid t b = true := by
  unfold regularCandidates at hb
  rcases List.mem_map.mp hb with ⟨c, hc, rfl⟩
  have h := regularCandEntries_mem hc
  exact ⟨h.1, h.2.1⟩

theorem regularCandEntries_chain (pool : List Batch) (item : RequestItem)
    (wid : String) (t : ℚ) :
    List.Chain' (fun x y => regularLt y x = false)
      (regularCandEntries pool item wid t) := by
  unfold regularCandEntries
  exact jsSortBy_chain regularLt regularLt_asym _

theorem regularCandidates_qty_sum (pool : List Batch) (item : RequestItem)
    (wid : String) (t : ℚ) :
    ((regularCandidates pool item wid t).map (fun b => b.quantity_kg)).sum
      = ((pool.filter (regularEligible item wid t)).map
          (fun b => b.quantity_kg)).sum := by
  unfold regularCandidates regularCandEntries
  rw [List.map_map]
  have hperm := (jsSortBy_perm regularLt
    ((pool.filter (regularEligible item wid t)).map (fun b =>
      ({ batch := b
         remainingHours := safeRemainingShelfLifeHours b t
         freshnessAtDispatch := calculateFreshnessPct b t 25 } : CandR)))).map
    ((fun b => b.quantity_kg) ∘ (fun c : CandR => c.batch))
  rw [hperm.sum_eq, List.map_map]
  rfl

theorem sub_jmax_eq_jmin {r S : ℚ} (_ : 0 ≤ r) (_ : 0 ≤ S) :
    r - jmax 0 (r - S) = jmin r S := by
  rw [jmax_eq_max, jmin_eq_min]
  rcases le_total r S with h | h
  · rw [max_eq_left (by linarith), min_eq_left h]
    ring
  · rw [max_eq_right (by linarith), min_eq_right h]
    ring

/-- C6 (amended).  For every line item for which the baseline allocator
emits an Allocation: it selects the nearest warehouse (in the
distance-sorted candidate list) that has at least one eligible batch
(status stored, located there, available by dispatch time, positive
remaining shelf life, positive freshness at dispatch); all referenced
batches are eligible batches of that single warehouse, so it never
overflows to a second warehouse; the allocated total is exactly
min(required, summed eligible quantity), so 60 eligible kg against a 100 kg
demand gives exactly 60; and the batches are consumed greedily in the order
of the code comparator — ascending remaining shelf life when both batches
have finite remaining life, otherwise ascending manufacture time (the
fallback the frozen claim omits: a non-perishable candidate is ranked by
manufacture time, not last). -/
theorem regular_item_allocation
    (sorted : List (NodeR × ℚ)) (requestId : String) (t : ℚ)
    (pool : List Batch) (item : RequestItem) (a : Allocation) (pool2 : List Batch)
    (hstep : regularItemStep sorted requestId t pool item = (some a, pool2))
    (hqty : ∀ b ∈ pool, 0 ≤ b.quantity_kg) :
    (∃ wd ∈ sorted, a.warehouse = wd.1.id ∧ a.distance_km = wd.2
      ∧ pool.any (regularEligible item wd.1.id t) = true
      ∧ (List.Chain' (fun x y : NodeR × ℚ => x.2 ≤ y.2) sorted →
          ∀ wd2 ∈ sorted, pool.any (regularEligible item wd2.1.id t) = true →
            wd.2 ≤ wd2.2))
    ∧ (∀ u ∈ a.batches, ∃ b ∈ pool, u.batchId = b.id
        ∧ regularEligible item a.warehouse t b = true)
    ∧ a.allocated_kg
        = jmin item.required_kg
            (((pool.filter (regularEligible item a.warehouse t)).map
              (fun b => b.quantity_kg)).sum)
    ∧ (∃ cs : List CandR,
        List.Chain' (fun x y => regularLt y x = false) cs
        ∧ (∀ c ∈ cs, c.batch ∈ pool
            ∧ regularEligible item a.warehouse t c.batch = true
            ∧ c.remainingHours = safeRemainingShelfLifeHours c.batch t)
        ∧ a.batches.map (fun u => u.batchId) = cs.map (fun c => c.batch.id)) := by
  unfold regularItemStep at hstep
  cases hpick : pickSourceWarehouse sorted pool item t with
  | none =>
    rw [hpick] at hstep
    simp at hstep
  | some wd =>
    rw [hpick] at hstep
    dsimp only at hstep
    by_cases hpos : 0 < item.required_kg
        - (consumeBatches recordedFreshness
            (regularCandidates pool item wd.1.id t) item.required_kg pool).2.1
    · rw [if_pos hpos] at hstep
      have hrec := Option.some.inj (congrArg Prod.fst hstep)
      subst hrec
      have hreq0 : 0 ≤ item.required_kg := by
        by_contra hneg
        push_neg at hneg
        rw [consumeBatches_break _ _ _ _ (le_of_lt hneg)] at hpos
        simp at hpos
      have hcandq : ∀ b ∈ regularCandidates pool item wd.1.id t, 0 ≤ b.quantity_kg :=
        fun b hb => hqty b (regularCandidates_mem hb).1
      refine ⟨?_, ?_, ?_, ?_⟩
      · unfold pickSourceWarehouse at hpick
        rcases find?_decomp hpick with ⟨l1, l2, hsplit, hall, hwdp⟩
        refine ⟨wd, ?_, rfl, rfl, hwdp, ?_⟩
        · rw [hsplit]
          exact List.mem_append_right _ (List.mem_cons_self _ _)
        · intro hchain wd2 hwd2 helig2
          rw [hsplit] at hchain hwd2
          rcases List.mem_append.mp hwd2 with h1 | h2
          · have := hall wd2 h1
            rw [helig2] at this
            cases this
          · rcases List.mem_cons.mp h2 with rfl | h3
            · exact le_refl _
            · exact chain'_le_of_mem wd l2 (chain'_drop_append l1 wd l2 hchain) wd2 h3
      · intro u hu
        rcases consumeBatches_used_mem recordedFreshness _ _ _ u hu with ⟨b, hbc, hid⟩
        have h := regularCandidates_mem hbc
        exact ⟨b, h.1, hid, h.2⟩
      · show item.required_kg
            - (consumeBatches recordedFreshness
                (regularCandidates pool item wd.1.id t) item.required_kg pool).2.1
            = _
        rw [consumeBatches_remaining_formula recordedFreshness _ _ _ hcandq hreq0]
        have hS : 0 ≤ ((regularCandidates pool item wd.1.id t).map
            (fun b => b.quantity_kg)).sum := by
          apply List.sum_nonneg
          intro x hx
          rcases List.mem_map.mp hx with ⟨y, hy, rfl⟩
          exact hcandq y hy
        rw [sub_jmax_eq_jmin hreq0 hS, regularCandidates_qty_sum]
      · refine ⟨(regularCandEntries pool item wd.1.id t).take
            ((consumeBatches recordedFreshness
              (regularCandidates pool item wd.1.id t) item.required_kg pool).1.length),
          (regularCandEntries_chain pool item wd.1.id t).take _, ?_, ?_⟩
        · intro c hc
          have hc2 := List.mem_of_mem_take hc
          have h := regularCandEntries_mem hc2
          exact ⟨h.1, h.2.1, h.2.2⟩
        · show (consumeBatches recordedFreshness
              (regularCandidates pool item wd.1.id t) item.required_kg pool).1.map
                (fun u => u.batchId) = _
          rw [consumeBatches_used_ids_front]
          unfold regularCandidates
          rw [← List.map_take, List.map_map]
          rfl
    · rw [if_neg hpos] at hstep
      simp at hstep

/-- Scenario warehouse A of the C6 witness (nearest, 60 kg eligible). -/
def c6WarehouseA : NodeR :=
  { id := "A", name := "A", state := none, district := none,
    regionId := none, capacity_kg := none }

/-- Scenario warehouse B of the C6 witness (farther, 100 kg eligible). -/
def c6WarehouseB : NodeR :=
  { id := "B", name := "B", state := none, district := none,
    regionId := none, capacity_kg := none }

/-- The expected Allocation of the C6 witness scenario: 60 of 100 kg from
the nearest warehouse, no overflow to the second. -/
def c6Alloc : Allocation :=
  { requestId := "r1", foodType := "rice", required_kg := 100,
    allocated_kg := 60, warehouse := "A", distance_km := 10,
    batches := [{ batchId := "bA", quantity := 60, freshness := 100 }],
    strategy := "regular", dispatchTime := 0 }

/-- Witness for C6: warehouse A at distance 10 holds 60 eligible kg,
warehouse B at distance 50 holds 100 kg; a 100 kg line item allocates
exactly min(100, 60) = 60 from A. -/
theorem regular_item_allocation_witness :
    c6Alloc.allocated_kg
      = jmin (RequestItem.mk "rice" 100).required_kg
          ((([mkBatch "bA" "rice" "A" 60 (some 0) (some 48),
              mkBatch "bB" "rice" "B" 100 (some 0) (some 48)].filter
              (regularEligible (RequestItem.mk "rice" 100) c6Alloc.warehouse 0)).map
            (fun b => b.quantity_kg)).sum) :=
  (regular_item_allocation [(c6WarehouseA, 10), (c6WarehouseB, 50)] "r1" 0
    [mkBatch "bA" "rice" "A" 60 (some 0) (some 48),
     mkBatch "bB" "rice" "B" 100 (some 0) (some 48)]
    (RequestItem.mk "rice" 100) c6Alloc
    [mkBatch "bB" "rice" "B" 100 (some 0) (some 48)]
    (by
      norm_num +decide [regularItemStep, pickSourceWarehouse, regularCandidates,
        regularCandEntries, regularEligible, availableBy, regularLt, regularTieTime,
        recordedFreshness, consumeBatches, removeFirstById, subQuantityFirst,
        jsSortBy, jsInsert, safeRemainingShelfLifeHours, hasPositiveShelfLife,
        remainingShelfLifeHours, calculateFreshnessPct, tempFactor, round2, jsRound,
        msPerHour, jmax, jmin, mkBatch, c6WarehouseA, c6WarehouseB, c6Alloc])
    (by
      intro b hb
      rcases List.mem_cons.mp hb with rfl | hb2
      · norm_num [mkBatch]
      · rcases List.mem_cons.mp hb2 with rfl | hb3
        · norm_num [mkBatch]
        · cases hb3)).2.2.1

/-- The non-perishable batch of the C6 counterexample: no shelf life,
manufactured at time 0. -/
def c6BatchX : Batch := mkBatch "X" "rice" "w1" 50 (some 0) none

/-- The perishable batch of the C6 counterexample: 10h shelf life,
manufactured one hour later than the non-perishable one. -/
def c6BatchY : Batch := mkBatch "Y" "rice" "w1" 50 (some msPerHour) (some 10)

/-- The single warehouse of the C6 counterexample. -/
def c6Warehouse : NodeR :=
  { id := "w1", name := "w1", state := none, district := none,
    regionId := none, capacity_kg := none }

/-- The NGO node of the C6 counterexample. -/
def c6NgoNode : NodeR :=
  { id := "n1", name := "ngo1", state := none, district := none,
    regionId := none, capacity_kg := none }

/-- The NGO organization of the C6 counterexample. -/
def c6Org : NgoOrg := { id := "o1", name := "ngo1" }

/-- The request of the C6 counterexample: 30 kg of rice, created two hours
after the epoch. -/
def c6Request : Request :=
  { requestID := "r1", requesterNode := "o1",
    items := [{ foodType := "rice", required_kg := 30 }],
    createdOn := some (2 * msPerHour), dispatchTime := none }

/-- Counterexample for C6 as frozen: the produced allocation consumes only
batch X, whose remaining shelf life is infinite (none), while batch Y with
finite remaining shelf life 7h was eligible at the same warehouse — the
comparator fell back to manufacture time because X has no finite remaining
life, so consumption is not in ascending remaining-shelf-life order. -/
theorem regular_order_counterexample :
    (allocateRegular (fun _ _ => 5) 0 [c6Request] [c6BatchX, c6BatchY]
        [c6Warehouse] [c6NgoNode] [c6Org]
        { dispatchTimeFloor := none, dispatchTimeCeil := none }).map
        (fun a => a.batches.map (fun u => u.batchId)) = [["X"]]
    ∧ safeRemainingShelfLifeHours c6BatchY (2 * msPerHour) = some 7
    ∧ safeRemainingShelfLifeHours c6BatchX (2 * msPerHour) = none
    ∧ regularEligible { foodType := "rice", required_kg := 30 } "w1"
        (2 * msPerHour) c6BatchY = true := by
  refine ⟨?_, ?_, ?_, ?_⟩ <;>
    norm_num +decide [allocateRegular, regularRequestsLoop, regularDispatchTime,
      clampDispatch, warehousesByDistance, regularItemsLoop, regularItemStep,
      pickSourceWarehouse, regularCandidates, regularCandEntries, regularEligible,
      availableBy, regularLt, regularTieTime, recordedFreshness, consumeBatches,
      removeFirstById, subQuantityFirst, jsSortBy, jsInsert,
      safeRemainingShelfLifeHours, hasPositiveShelfLife, remainingShelfLifeHours,
      calculateFreshnessPct, tempFactor, round2, jsRound, msPerHour, jmax, jmin,
      mkBatch, c6BatchX, c6BatchY, c6Warehouse, c6NgoNode, c6Org, c6Request,
      Option.orElse, Option.getD]

/-- A regional demand-signal row from the external predictor. -/
structure SignalRow where
  state : Option String
  district : Option String
  anomaly_score : ℚ
  is_anomaly : ℤ
deriving DecidableEq, Repr

/-- The regionalSignals map built from the optional predict call: empty on
failure, else keyed state-district with isAnomaly when is_anomaly is 1. -/
def regionalSignalsOf (res : Except Unit (List SignalRow)) : List (String × Bool) :=
  match res with
  | Except.error _ => []
  | Except.ok rows =>
    (rows.filter (fun r => r.state.isSome || r.district.isSome)).map (fun r =>
      ((r.state.getD "Unknown") ++ "-" ++ (r.district.getD "Unknown"),
        decide (r.is_anomaly = 1)))

/-- Lookup in the signals map; a later entry for the same key wins, as in a
JavaScript Map built from an entry list. -/
def signalLookup (signals : List (String × Bool)) (key : String) : Option Bool :=
  (signals.reverse.find? (fun p => p.1 = key)).map (fun p => p.2)

/-- The region key of an NGO node: state, else regionId, else Unknown,
joined with the district. -/
def regionKey (n : NodeR) : String :=
  (match n.state with
   | some s => s
   | none =>
     match n.regionId with
     | some r => r
     | none => "Unknown") ++ "-" ++ n.district.getD "Unknown"

/-- The urgency boost: 1.1 when the demand node region is flagged anomalous,
else 1.0. -/
def urgencyBoostOf (signals : List (String × Bool)) (n : NodeR) : ℚ :=
  match signalLookup signals (regionKey n) with
  | some true => 11/10
  | _ => 1

/-- Options of an allocateML run.  The embedding fixes the cron interval to
its default (unset), so planning happens at most once before allocation. -/
structure MLOptions where
  referenceDate : Option ℚ
  dispatchTimeFloor : Option ℚ
  dispatchTimeCeil : Option ℚ
  enableTransferPlanner : Bool
  overstock : ℚ
  understock : ℚ
  target : ℚ
  minTransferKg : ℚ
  maxPairs : ℚ
deriving DecidableEq, Repr

/-- The environment-default thresholds of allocateML. -/
def preferredMinDeliveredFreshnessPct : ℚ := 55

def relaxedMinDeliveredFreshnessPct : ℚ := 25

def maxPreferredDistanceKm : ℚ := 250

def distanceDecayKm : ℚ := 70

def hardMaxDistanceKm : ℚ := 450

def topKWarehouses : ℕ := 12

def minInCapFulfillment : ℚ := 3/5

/-- First-occurrence deduplication, as a JavaScript Set built from a list. -/
def dedupFirst (l : List String) : List String :=
  l.foldl (fun acc x => if x ∈ acc then acc else acc ++ [x]) []

/-- The capacity of a warehouse id: the capacity_kg of its (last) record if
finite positive, else the 10000 kg default. -/
def warehouseCapacity (warehouses : List NodeR) (id : String) : ℚ :=
  match warehouses.reverse.find? (fun w => w.id = id) with
  | some w =>
    match w.capacity_kg with
    | some c => if 0 < c then c else 10000
    | none => 10000
  | none => 10000

/-- The stored inventory a warehouse id holds: summed positive quantities of
stored batches located there. -/
def storedInventory (pool : List Batch) (id : String) : ℚ :=
  ((pool.filter (fun b =>
      b.status = BatchStatus.stored && b.currentNode = id && 0 < b.quantity_kg)).map
    (fun b => b.quantity_kg)).sum

/-- The utilization of a warehouse id: stored kg over capacity kg. -/
def warehouseUtil (warehouses : List NodeR) (pool : List Batch) (id : String) : ℚ :=
  storedInventory pool id / warehouseCapacity warehouses id

/-- The percentile of the ascending-sorted utilization list:
value at index floor(clamp(0,1,p) * (length - 1)), rounded to 3 decimals. -/
def percentile (sorted : List ℚ) (p : ℚ) : Option ℚ :=
  match sorted with
  | [] => none
  | _ =>
    let clamped := jmin 1 (jmax 0 p)
    match sorted.get? (Int.toNat ⌊clamped * ((sorted.length : ℚ) - 1)⌋) with
    | some v => some (round3 v)
    | none => none

/-- The maximum of a utilization list (none when empty, as the JavaScript
-Infinity start fails the isFinite check). -/
def maxUtilOf : List ℚ → Option ℚ
  | [] => none
  | x :: xs => some (xs.foldl jmax x)

/-- The minimum of a utilization list. -/
def minUtilOf : List ℚ → Option ℚ
  | [] => none
  | x :: xs => some (xs.foldl jmin x)

/-- The imbalance statistics shouldRunTransferPlanner records in the trace. -/
structure Imbalance where
  overstock : ℚ
  understock : ℚ
  target : ℚ
  minTransferKg : ℚ
  warehouses : ℕ
  overCount : ℕ
  underCount : ℕ
  maxUtil : Option ℚ
  minUtil : Option ℚ
  utilP50 : Option ℚ
  utilP90 : Option ℚ
  utilP95 : Option ℚ
deriving DecidableEq, Repr

/-- shouldRunTransferPlanner from allocateML: compute per-warehouse
utilization (default capacity 10000 kg), count overstocked and understocked
warehouses, record imbalance statistics, and run only when at least one
warehouse is at or above the overstock ratio and at least one is at or below
the understock ratio. -/
def shouldRunTransferPlanner (opts : MLOptions) (warehouses : List NodeR)
    (pool : List Batch) : Bool × Imbalance :=
  let whIds := dedupFirst (warehouses.map (fun w => w.id))
  let utils := whIds.map (warehouseUtil warehouses pool)
  let overCount := (utils.filter (fun u => opts.overstock ≤ u)).length
  let underCount := (utils.filter (fun u => u ≤ opts.understock)).length
  let sortedUtils := jsSortBy (fun a b => decide (a < b)) utils
  ((decide (0 < overCount) && decide (0 < underCount)),
   { overstock := opts.overstock
     understock := opts.understock
     target := opts.target
     minTransferKg := opts.minTransferKg
     warehouses := whIds.length
     overCount := overCount
     underCount := underCount
     maxUtil := (maxUtilOf utils).map round3
     minUtil := (minUtilOf utils).map round3
     utilP50 := percentile sortedUtils (1/2)
     utilP90 := percentile sortedUtils (9/10)
     utilP95 := percentile sortedUtils (19/20) })

/-- A transfer-planner timeline entry (trace observability fields). -/
structure TimelineEntry where
  skipped : Bool
  attempted : Bool
  errored : Bool
  suggestedCount : ℕ
  appliedCount : ℕ
  imbalance : Option Imbalance
deriving DecidableEq, Repr

/-- The transferPlannerDebug trace of allocateML. -/
structure PlannerDebug where
  enabled : Bool
  attemptedRuns : ℕ
  runs : ℕ
  skippedRuns : ℕ
  errorRuns : ℕ
  suggestedTransfers : ℕ
  appliedTransfers : ℕ
  lastApplied : List AppliedTransfer
  lastSuggestedCount : ℕ
  imbalance : Option Imbalance
  timeline : List TimelineEntry
deriving DecidableEq, Repr

/-- The initial transferPlannerDebug state. -/
def initPlannerDebug (enabled : Bool) : PlannerDebug :=
  { enabled := enabled, attemptedRuns := 0, runs := 0, skippedRuns := 0,
    errorRuns := 0, suggestedTransfers := 0, appliedTransfers := 0,
    lastApplied := [], lastSuggestedCount := 0, imbalance := none, timeline := [] }

/-- runTransferPlannerOnce from allocateML: on a successful planner call
apply the suggested transfers to the snapshot; on failure or timeout swallow
the error, record it, and leave the snapshot untouched. -/
def runTransferPlannerOnce (plannerResult : Except Unit (List TransferSuggestion))
    (pool : List Batch) (when : ℚ) (dbg : PlannerDebug) :
    List Batch × PlannerDebug :=
  let dbg1 := { dbg with attemptedRuns := dbg.attemptedRuns + 1 }
  match plannerResult with
  | Except.ok transfers =>
    let applied := applyWarehouseTransfersToBatches pool transfers when
    (applied.1,
     { dbg1 with
        suggestedTransfers := dbg1.suggestedTransfers + transfers.length
        lastSuggestedCount := transfers.length
        runs := dbg1.runs + 1
        appliedTransfers := dbg1.appliedTransfers + applied.2.length
        lastApplied := applied.2
        timeline := dbg1.timeline
          ++ [{ skipped := false, attempted := true, errored := false,
                suggestedCount := transfers.length,
                appliedCount := applied.2.length, imbalance := none }] })
  | Except.error _ =>
    (pool,
     { dbg1 with
        errorRuns := dbg1.errorRuns + 1
        timeline := dbg1.timeline
          ++ [{ skipped := false, attempted := true, errored := true,
                suggestedCount := 0, appliedCount := 0, imbalance := none }] })

/-- The one-shot planning phase of allocateML (cron interval unset): when
the planner is enabled, record the imbalance statistics, then either attempt
one run or record a skipped entry carrying those statistics. -/
def mlPlannerPhase (opts : MLOptions) (warehouses : List NodeR)
    (plannerResult : Except Unit (List TransferSuggestion))
    (pool : List Batch) (when : ℚ) : List Batch × PlannerDebug :=
  let dbg0 := initPlannerDebug opts.enableTransferPlanner
  if opts.enableTransferPlanner then
    let sr := shouldRunTransferPlanner opts warehouses pool
    let dbg1 := { dbg0 with imbalance := some sr.2 }
    if sr.1 then runTransferPlannerOnce plannerResult pool when dbg1
    else
      (pool,
       { dbg1 with
          skippedRuns := dbg1.skippedRuns + 1
          timeline := dbg1.timeline
            ++ [{ skipped := true, attempted := false, errored := false,
                  suggestedCount := 0, appliedCount := 0,
                  imbalance := some sr.2 }] })
  else (pool, dbg0)

/-- A candidate entry of the scored allocator batch ranking. -/
structure CandM where
  batch : Batch
  remainingHours : Option ℚ
  freshnessAtDelivery : ℚ
deriving DecidableEq, Repr

/-- The scored allocator batch comparator: freshness-at-delivery descending,
remaining shelf life ascending as tie-break (an infinite remaining life,
modelled as none, sorts after finite ones; two infinities tie). -/
def mlLt (x y : CandM) : Bool :=
  if y.freshnessAtDelivery = x.freshnessAtDelivery then
    match x.remainingHours, y.remainingHours with
    | some rx, some ry => decide (rx < ry)
    | some _, none => true
    | none, some _ => false
    | none, none => false
  else decide (y.freshnessAtDelivery < x.freshnessAtDelivery)

/-- The base candidate batches of the scored allocator at a warehouse:
requested food type, stored there, available by dispatch, positive remaining
shelf life and not spoiled on arrival. -/
def mlCandidateBatches (pool : List Batch) (item : RequestItem) (w : NodeR)
    (dispatchTime deliveryTime : ℚ) : List CandM :=
  ((pool.filter (fun b =>
      b.foodType = item.foodType && !b.currentNode.isEmpty &&
      b.currentNode = w.id && b.status = BatchStatus.stored &&
      availableBy b dispatchTime)).map
    (fun b =>
      { batch := b
        remainingHours := safeRemainingShelfLifeHours b dispatchTime
        freshnessAtDelivery := calculateFreshnessPct b deliveryTime 25 })).filter
    (fun x =>
      (match x.remainingHours with
       | some h => decide (0 < h)
       | none => true) &&
      decide (0 < x.freshnessAtDelivery))

/-- The three eligibility tiers, evaluated strict, then relaxed, then
fallback; the booleans are usingRelaxed and usingFallback. -/
def mlTierBatches (cands : List CandM) : List CandM × Bool × Bool :=
  let strictE := jsSortBy mlLt (cands.filter
    (fun x => preferredMinDeliveredFreshnessPct ≤ x.freshnessAtDelivery))
  let relaxedE := jsSortBy mlLt (cands.filter
    (fun x => relaxedMinDeliveredFreshnessPct ≤ x.freshnessAtDelivery))
  let fallbackE := jsSortBy mlLt (cands.filter
    (fun x => 0 < x.freshnessAtDelivery))
  if strictE.length ≠ 0 then (strictE, false, false)
  else if relaxedE.length ≠ 0 then (relaxedE, true, false)
  else if fallbackE.length ≠ 0 then (fallbackE, true, true)
  else ([], false, false)

/-- The weighted delivered-freshness and expiry-pressure accumulation over
the tier batches, stopping once the cumulative usable quantity covers the
requirement.  An infinite remaining life gives expiry pressure 0. -/
def mlWeightedGo : List CandM → ℚ → ℚ → ℚ → ℚ → ℚ × ℚ
  | [], _, _, wdf, wep => (wdf, wep)
  | x :: rest, required, cumulative, wdf, wep =>
    let usable := jmin x.batch.quantity_kg (required - cumulative)
    let wdf2 := wdf + x.freshnessAtDelivery * (usable / required)
    let ep := match x.remainingHours with
      | some h => 1 / (1 + h / 24)
      | none => 0
    let wep2 := wep + ep * (usable / required)
    let cum2 := cumulative + usable
    if required ≤ cum2 then (wdf2, wep2)
    else mlWeightedGo rest required cum2 wdf2 wep2

/-- The composite warehouse score: distance, delivered freshness, expiry
pressure and fulfillment terms, urgency boost, and tier penalties.  The
result none models the NaN score a zero requirement produces in the code
(division by zero), which then never beats any best score. -/
def mlScore (expO : ℚ → ℚ) (boost distance : ℚ) (avail : List CandM)
    (required : ℚ) (usingRelaxed usingFallback : Bool) : Option ℚ :=
  if required = 0 then none
  else
    let w := mlWeightedGo avail required 0 0 0
    let totalAvailable := (avail.map (fun x => x.batch.quantity_kg)).sum
    let fulfillmentRatio := jmin 1 (totalAvailable / required)
    let distanceScore := expO (-distance / distanceDecayKm)
    let score0 := (distanceScore * (1/10) + w.1 / 100 * (45/100)
      + w.2 * (5/100) + fulfillmentRatio * (2/5)) * boost
    some (if usingFallback then score0 * (95/100)
          else if usingRelaxed then score0 * (98/100) else score0)

/-- score > best, where none on the left is NaN (never greater) and none on
the right is the -Infinity start. -/
def scoreGt (s best : Option ℚ) : Bool :=
  match s with
  | none => false
  | some v =>
    match best with
    | none => true
    | some b => decide (b < v)

/-- The running best-candidate state of the scored allocator. -/
structure MLBest where
  scoreOverall : Option ℚ
  warehouseOverall : Option NodeR
  batchesOverall : List CandM
  fulfillOverall : ℚ
  scoreInCap : Option ℚ
  warehouseInCap : Option NodeR
  batchesInCap : List CandM
  fulfillInCap : ℚ
deriving DecidableEq, Repr

/-- The initial best state (-Infinity scores, no warehouse). -/
def initMLBest : MLBest :=
  { scoreOverall := none, warehouseOverall := none, batchesOverall := [],
    fulfillOverall := 0, scoreInCap := none, warehouseInCap := none,
    batchesInCap := [], fulfillInCap := 0 }

/-- Evaluation of one candidate warehouse: compute the delivery time, filter
and tier the batches, score, and update the overall and in-cap bests. -/
def mlEvalWarehouse (expO : ℚ → ℚ) (pool : List Batch) (item : RequestItem)
    (dispatchTime boost : ℚ) (best : MLBest) (wd : NodeR × ℚ) : MLBest :=
  let deliveryTime := dispatchTime + estimateTravelHours wd.2 * 3600 * 1000
  let cands := mlCandidateBatches pool item wd.1 dispatchTime deliveryTime
  let tier := mlTierBatches cands
  if tier.1.isEmpty then best
  else
    let score := mlScore expO boost wd.2 tier.1 item.required_kg tier.2.1 tier.2.2
    let totalAvailable := (tier.1.map (fun x => x.batch.quantity_kg)).sum
    let fulfillmentRatio := jmin 1 (totalAvailable / item.required_kg)
    let best1 := if scoreGt score best.scoreOverall then
        { best with
            scoreOverall := score
            warehouseOverall := some wd.1
            batchesOverall := tier.1
            fulfillOverall := fulfillmentRatio }
      else best
    if wd.2 ≤ maxPreferredDistanceKm && scoreGt score best1.scoreInCap then
      { best1 with
          scoreInCap := score
          warehouseInCap := some wd.1
          batchesInCap := tier.1
          fulfillInCap := fulfillmentRatio }
    else best1

/-- Evaluation of a list of candidate warehouses. -/
def mlEvaluate (expO : ℚ → ℚ) (pool : List Batch) (item : RequestItem)
    (dispatchTime boost : ℚ) (best : MLBest) (cands : List (NodeR × ℚ)) : MLBest :=
  cands.foldl (mlEvalWarehouse expO pool item dispatchTime boost) best

/-- The dispatch time allocateML derives for a request: the request time (or
now), overridden by a fixed reference date when no clamping window is set,
then clamped. -/
def mlDispatchTime (opts : MLOptions) (now : ℚ) (r : Request) : ℚ :=
  let base := (r.dispatchTime.orElse (fun _ => r.createdOn)).getD now
  let base2 := match opts.referenceDate with
    | some ref =>
      if opts.dispatchTimeFloor.isNone && opts.dispatchTimeCeil.isNone then ref
      else base
    | none => base
  clampDispatch
    { dispatchTimeFloor := opts.dispatchTimeFloor
      dispatchTimeCeil := opts.dispatchTimeCeil } base2

/-- The distance-sorted warehouse candidates within the hard distance cap. -/
def mlAllCandidates (dist : NodeR → NodeR → ℚ) (warehouses : List NodeR)
    (ngoNode : NodeR) : List (NodeR × ℚ) :=
  jsSortBy (fun a b => decide (a.2 < b.2))
    ((warehouses.map (fun w => (w, dist ngoNode w))).filter
      (fun x => 0 ≤ x.2 && x.2 ≤ hardMaxDistanceKm))

/-- The best-candidate state after evaluating the nearest top-K warehouses
and, when no near-full plan was found, widening to all in-cap candidates. -/
def mlBestState (dist : NodeR → NodeR → ℚ) (expO : ℚ → ℚ)
    (warehouses : List NodeR) (ngoNode : NodeR) (dispatchTime boost : ℚ)
    (pool : List Batch) (item : RequestItem) : MLBest :=
  let allCands := mlAllCandidates dist warehouses ngoNode
  let primary := allCands.take (Nat.max 1 topKWarehouses)
  let best1 := mlEvaluate expO pool item dispatchTime boost initMLBest primary
  if primary.length < allCands.length
      && (best1.warehouseOverall.isNone || decide (best1.fulfillOverall < 19/20))
  then mlEvaluate expO pool item dispatchTime boost best1 allCands
  else best1

/-- The per-line-item step of allocateML: sort warehouses within the hard
distance cap, evaluate the nearest top-K, widen to all in-cap candidates if
no near-full plan was found, prefer the in-cap best when it fulfills at
least 60 percent, and consume the winning batch list greedily. -/
def mlItemStep (dist : NodeR → NodeR → ℚ) (expO : ℚ → ℚ)
    (warehouses : List NodeR) (ngoNode : NodeR) (requestId : String)
    (dispatchTime boost : ℚ) (pool : List Batch) (item : RequestItem) :
    Option Allocation × List Batch :=
  let best := mlBestState dist expO warehouses ngoNode dispatchTime boost pool item
  let useInCap := best.warehouseInCap.isSome
    && decide (minInCapFulfillment ≤ best.fulfillInCap)
  let bestWarehouse := if useInCap then best.warehouseInCap else best.warehouseOverall
  let bestBatches := if useInCap then best.batchesInCap else best.batchesOverall
  match bestWarehouse with
  | none => (none, pool)
  | some bw =>
    let r := consumeBatches (fun b => calculateFreshnessPct b dispatchTime 25)
      (bestBatches.map (fun c => c.batch)) item.required_kg pool
    (some { requestId := requestId
            foodType := item.foodType
            required_kg := item.required_kg
            allocated_kg := item.required_kg - r.2.1
            warehouse := bw.id
            distance_km := dist ngoNode bw
            batches := r.1
            strategy := "ml"
            dispatchTime := dispatchTime }, r.2.2)

/-- The item loop of allocateML for one request. -/
def mlItemsLoop (dist : NodeR → NodeR → ℚ) (expO : ℚ → ℚ)
    (warehouses : List NodeR) (ngoNode : NodeR) (requestId : String)
    (dispatchTime boost : ℚ) :
    List RequestItem → List Batch → List Allocation × List Batch
  | [], pool => ([], pool)
  | item :: rest, pool =>
    let r := mlItemStep dist expO warehouses ngoNode requestId dispatchTime boost
      pool item
    let r2 := mlItemsLoop dist expO warehouses ngoNode requestId dispatchTime boost
      rest r.2
    ((match r.1 with
      | some a => a :: r2.1
      | none => r2.1), r2.2)

/-- The request loop of allocateML: resolve the NGO organization and node,
derive the dispatch time and regional urgency boost, then allocate items. -/
def mlRequestsLoop (dist : NodeR → NodeR → ℚ) (expO : ℚ → ℚ) (now : ℚ)
    (warehouses ngos : List NodeR) (ngoOrgs : List NgoOrg) (opts : MLOptions)
    (signals : List (String × Bool)) :
    List Request → List Batch → List Allocation × List Batch
  | [], pool => ([], pool)
  | r :: rest, pool =>
    match ngoOrgs.find? (fun o => o.id = r.requesterNode) with
    | none => mlRequestsLoop dist expO now warehouses ngos ngoOrgs opts signals rest pool
    | some org =>
      match ngos.find? (fun n => n.name = org.name) with
      | none => mlRequestsLoop dist expO now warehouses ngos ngoOrgs opts signals rest pool
      | some ngoNode =>
        let t := mlDispatchTime opts now r
        let boost := urgencyBoostOf signals ngoNode
        let ri := mlItemsLoop dist expO warehouses ngoNode r.requestID t boost r.items pool
        let r2 := mlRequestsLoop dist expO now warehouses ngos ngoOrgs opts signals rest ri.2
        (ri.1 ++ r2.1, r2.2)

/-- allocateML from simulationService.js (cron interval unset, so the
transfer planner runs at most once before allocation).  The two external
calls are supplied as Except results: an error models a failed or timed-out
round-trip, which the code swallows. -/
def allocateML (dist : NodeR → NodeR → ℚ) (expO : ℚ → ℚ) (now : ℚ)
    (requests : List Request) (batches : List Batch)
    (warehouses ngos : List NodeR) (ngoOrgs : List NgoOrg) (opts : MLOptions)
    (signalResult : Except Unit (List SignalRow))
    (plannerResult : Except Unit (List TransferSuggestion)) :
    List Allocation × PlannerDebug :=
  let signals := regionalSignalsOf signalResult
  let pp := mlPlannerPhase opts warehouses plannerResult batches
    (opts.referenceDate.getD now)
  let rl := mlRequestsLoop dist expO now warehouses ngos ngoOrgs opts signals
    requests pp.1
  (rl.1, pp.2)

theorem filter_length_pos {p : ℚ → Bool} {l : List ℚ} :
    0 < (l.filter p).length ↔ ∃ x ∈ l, p x = true := by
  induction l with
  | nil => simp
  | cons a as ih =>
    by_cases ha : p a
    · simp [List.filter_cons, ha]
    · simp only [List.filter_cons, if_neg ha, ih]
      constructor
      · rintro ⟨x, hx, hpx⟩
        exact ⟨x, List.mem_cons_of_mem a hx, hpx⟩
      · rintro ⟨x, hx, hpx⟩
        rcases List.mem_cons.mp hx with rfl | hx2
        · exact absurd hpx (by simpa using ha)
        · exact ⟨x, hx2, hpx⟩

/-- The default planner tuning used by the C8 scenario: overstock 0.8,
understock 0.4, target 0.6, planner enabled. -/
def c8Opts : MLOptions :=
  { referenceDate := none, dispatchTimeFloor := none, dispatchTimeCeil := none,
    enableTransferPlanner := true, overstock := 4/5, understock := 2/5,
    target := 3/5, minTransferKg := 200, maxPairs := 5 }

/-- C8 scenario warehouse 1, capacity 10000 kg. -/
def c8W1 : NodeR :=
  { id := "wh1", name := "wh1", state := none, district := none,
    regionId := none, capacity_kg := some 10000 }

/-- C8 scenario warehouse 2, capacity 10000 kg. -/
def c8W2 : NodeR :=
  { id := "wh2", name := "wh2", state := none, district := none,
    regionId := none, capacity_kg := some 10000 }

/-- C8 balanced pool: both warehouses at 50 percent utilization. -/
def c8BalancedPool : List Batch :=
  [mkBatch "s1" "rice" "wh1" 5000 none none,
   mkBatch "s2" "rice" "wh2" 5000 none none]

/-- C8 imbalanced pool: 90 percent against 20 percent utilization. -/
def c8ImbalancedPool : List Batch :=
  [mkBatch "s1" "rice" "wh1" 9000 none none,
   mkBatch "s2" "rice" "wh2" 2000 none none]

/-- C8.  The transfer planner attempts a run exactly when at least one
warehouse utilization (stored kg over capacity kg, default capacity 10000)
reaches the overstock ratio and at least one is at or below the understock
ratio; when the gate fails the one-shot phase leaves the snapshot untouched
and records a skipped trace entry carrying the imbalance statistics; at 50
percent utilization on both warehouses it skips, while 90 against 20
percent attempts the run. -/
theorem transfer_planner_gating :
    (∀ (opts : MLOptions) (warehouses : List NodeR) (pool : List Batch),
      (shouldRunTransferPlanner opts warehouses pool).1 = true ↔
        ((∃ w ∈ dedupFirst (warehouses.map (fun n => n.id)),
            opts.overstock ≤ warehouseUtil warehouses pool w)
         ∧ (∃ w ∈ dedupFirst (warehouses.map (fun n => n.id)),
            warehouseUtil warehouses pool w ≤ opts.understock)))
    ∧ (∀ (opts : MLOptions) (warehouses : List NodeR)
        (plannerResult : Except Unit (List TransferSuggestion))
        (pool : List Batch) (when : ℚ),
        opts.enableTransferPlanner = true →
        (shouldRunTransferPlanner opts warehouses pool).1 = false →
        mlPlannerPhase opts warehouses plannerResult pool when
          = (pool,
             { initPlannerDebug true with
                 imbalance := some (shouldRunTransferPlanner opts warehouses pool).2
                 skippedRuns := 1
                 timeline := [TimelineEntry.mk true false false 0 0
                   (some (shouldRunTransferPlanner opts warehouses pool).2)] }))
    ∧ (shouldRunTransferPlanner c8Opts [c8W1, c8W2] c8BalancedPool).1 = false
    ∧ (shouldRunTransferPlanner c8Opts [c8W1, c8W2] c8ImbalancedPool).1 = true
    ∧ warehouseUtil [c8W1, c8W2] c8BalancedPool "wh1" = 1/2
    ∧ warehouseUtil [c8W1, c8W2] c8BalancedPool "wh2" = 1/2 := by
  refine ⟨?_, ?_, ?_, ?_, ?_, ?_⟩
  · intro opts warehouses pool
    unfold shouldRunTransferPlanner
    simp only [Bool.and_eq_true, decide_eq_true_eq]
    rw [filter_length_pos, filter_length_pos]
    constructor
    · rintro ⟨⟨u1, hu1, hp1⟩, ⟨u2, hu2, hp2⟩⟩
      rcases List.mem_map.mp hu1 with ⟨w1, hw1, rfl⟩
      rcases List.mem_map.mp hu2 with ⟨w2, hw2, rfl⟩
      exact ⟨⟨w1, hw1, by simpa using hp1⟩, ⟨w2, hw2, by simpa using hp2⟩⟩
    · rintro ⟨⟨w1, hw1, hp1⟩, ⟨w2, hw2, hp2⟩⟩
      exact ⟨⟨warehouseUtil warehouses pool w1, List.mem_map_of_mem _ hw1, by simpa using hp1⟩,
             ⟨warehouseUtil warehouses pool w2, List.mem_map_of_mem _ hw2, by simpa using hp2⟩⟩
  · intro opts warehouses plannerResult pool when henable hgate
    unfold mlPlannerPhase
    rw [if_pos henable, if_neg (by simp [hgate]), henable]
    simp [initPlannerDebug]
  · norm_num +decide [shouldRunTransferPlanner, dedupFirst, warehouseUtil,
      storedInventory, warehouseCapacity, jsSortBy, jsInsert, jmax, jmin,
      c8Opts, c8W1, c8W2, c8BalancedPool, mkBatch]
  · norm_num +decide [shouldRunTransferPlanner, dedupFirst, warehouseUtil,
      storedInventory, warehouseCapacity, jsSortBy, jsInsert, jmax, jmin,
      c8Opts, c8W1, c8W2, c8ImbalancedPool, mkBatch]
  · norm_num +decide [warehouseUtil, storedInventory, warehouseCapacity,
      c8W1, c8W2, c8BalancedPool, mkBatch]
  · norm_num +decide [warehouseUtil, storedInventory, warehouseCapacity,
      c8W1, c8W2, c8BalancedPool, mkBatch]

/-- Witness for C8: the skip path applied to the balanced 50 percent
scenario records the skipped trace entry with imbalance statistics. -/
theorem transfer_planner_gating_witness :
    mlPlannerPhase c8Opts [c8W1, c8W2] (Except.ok []) c8BalancedPool 0
      = (c8BalancedPool,
         { initPlannerDebug true with
             imbalance := some (shouldRunTransferPlanner c8Opts [c8W1, c8W2] c8BalancedPool).2
             skippedRuns := 1
             timeline := [TimelineEntry.mk true false false 0 0
               (some (shouldRunTransferPlanner c8Opts [c8W1, c8W2] c8BalancedPool).2)] }) :=
  transfer_planner_gating.2.1 c8Opts [c8W1, c8W2] (Except.ok []) c8BalancedPool 0
    rfl transfer_planner_gating.2.2.1

/-- C9.  External-call failures degrade gracefully: with both the
demand-signal call and the transfer-planner call failing, allocateML
returns exactly the allocations it returns when both calls succeed with
empty results; a failed demand-signal call leaves the signal map empty, so
every urgency boost is 1.0; a failed planner attempt applies no transfers,
leaves the snapshot untouched, and is recorded in the trace as an errored
attempted run; neither failure is propagated as a fatal error. -/
theorem ml_external_failure_tolerance :
    (∀ (dist : NodeR → NodeR → ℚ) (expO : ℚ → ℚ) (now : ℚ)
        (requests : List Request) (batches : List Batch)
        (warehouses ngos : List NodeR) (ngoOrgs : List NgoOrg) (opts : MLOptions)
        (eS eP : Unit),
      (allocateML dist expO now requests batches warehouses ngos ngoOrgs opts
          (Except.error eS) (Except.error eP)).1
        = (allocateML dist expO now requests batches warehouses ngos ngoOrgs opts
          (Except.ok []) (Except.ok [])).1)
    ∧ (∀ eS : Unit, regionalSignalsOf (Except.error eS) = [])
    ∧ (∀ n : NodeR, urgencyBoostOf [] n = 1)
    ∧ (∀ (opts : MLOptions) (warehouses : List NodeR) (pool : List Batch)
        (when : ℚ) (eP : Unit),
        opts.enableTransferPlanner = true →
        (shouldRunTransferPlanner opts warehouses pool).1 = true →
        mlPlannerPhase opts warehouses (Except.error eP) pool when
          = (pool,
             { initPlannerDebug true with
                 imbalance := some (shouldRunTransferPlanner opts warehouses pool).2
                 attemptedRuns := 1
                 errorRuns := 1
                 timeline := [TimelineEntry.mk false true true 0 0 none] })) := by
  refine ⟨?_, ?_, ?_, ?_⟩
  · intro dist expO now requests batches warehouses ngos ngoOrgs opts eS eP
    unfold allocateML
    have h1 : regionalSignalsOf (Except.error eS)
        = regionalSignalsOf (Except.ok ([] : List SignalRow)) := rfl
    have h2 : (mlPlannerPhase opts warehouses (Except.error eP) batches
          (opts.referenceDate.getD now)).1
        = (mlPlannerPhase opts warehouses (Except.ok []) batches
          (opts.referenceDate.getD now)).1 := by
      unfold mlPlannerPhase runTransferPlannerOnce
      by_cases he : opts.enableTransferPlanner
      · rw [if_pos he, if_pos he]
        by_cases hg : (shouldRunTransferPlanner opts warehouses batches).1
        · rw [if_pos hg, if_pos hg]
          simp [applyWarehouseTransfersToBatches, applyTransfersGo]
        · rw [if_neg hg, if_neg hg]
      · rw [if_neg he, if_neg he]
    dsimp only
    rw [h1, h2]
  · intro eS
    rfl
  · intro n
    rfl
  · intro opts warehouses pool when eP henable hgate
    unfold mlPlannerPhase runTransferPlannerOnce
    rw [if_pos henable, if_pos (by simp [hgate]), henable]
    simp [initPlannerDebug]

/-- Witness for C9: both failure paths applied to a concrete scenario with
a genuine inventory imbalance (so the planner attempt really happens). -/
theorem ml_external_failure_tolerance_witness :
    (allocateML (fun _ _ => 0) (fun _ => 1) 0 [] c8ImbalancedPool
        [c8W1, c8W2] [] [] c8Opts (Except.error ()) (Except.error ())).1
      = (allocateML (fun _ _ => 0) (fun _ => 1) 0 [] c8ImbalancedPool
        [c8W1, c8W2] [] [] c8Opts (Except.ok []) (Except.ok [])).1
    ∧ mlPlannerPhase c8Opts [c8W1, c8W2] (Except.error ()) c8ImbalancedPool 0
      = (c8ImbalancedPool,
         { initPlannerDebug true with
             imbalance := some (shouldRunTransferPlanner c8Opts [c8W1, c8W2]
               c8ImbalancedPool).2
             attemptedRuns := 1
             errorRuns := 1
             timeline := [TimelineEntry.mk false true true 0 0 none] }) :=
  ⟨ml_external_failure_tolerance.1 (fun _ _ => 0) (fun _ => 1) 0 []
      c8ImbalancedPool [c8W1, c8W2] [] [] c8Opts () (),
   ml_external_failure_tolerance.2.2.2 c8Opts [c8W1, c8W2] c8ImbalancedPool 0 ()
     rfl
     (by
       norm_num +decide [shouldRunTransferPlanner, dedupFirst, warehouseUtil,
         storedInventory, warehouseCapacity, jsSortBy, jsInsert, jmax, jmin,
         c8Opts, c8W1, c8W2, c8ImbalancedPool, mkBatch])⟩

theorem regularItemStep_some (sorted : List (NodeR × ℚ)) (requestId : String)
    (t : ℚ) (pool : List Batch) (item : RequestItem) (a : Allocation)
    (pool2 : List Batch)
    (hstep : regularItemStep sorted requestId t pool item = (some a, pool2)) :
    ∃ wd : NodeR × ℚ,
      a = { requestId := requestId
            foodType := item.foodType
            required_kg := item.required_kg
            allocated_kg := item.required_kg - (consumeBatches recordedFreshness
              (regularCandidates pool item wd.1.id t) item.required_kg pool).2.1
            warehouse := wd.1.id
            distance_km := wd.2
            batches := (consumeBatches recordedFreshness
              (regularCandidates pool item wd.1.id t) item.required_kg pool).1
            strategy := "regular"
            dispatchTime := t }
      ∧ 0 < item.required_kg - (consumeBatches recordedFreshness
          (regularCandidates pool item wd.1.id t) item.required_kg pool).2.1 := by
  unfold regularItemStep at hstep
  cases hpick : pickSourceWarehouse sorted pool item t with
  | none =>
    rw [hpick] at hstep
    simp at hstep
  | some wd =>
    rw [hpick] at hstep
    dsimp only at hstep
    by_cases hpos : 0 < item.required_kg - (consumeBatches recordedFreshness
        (regularCandidates pool item wd.1.id t) item.required_kg pool).2.1
    · rw [if_pos hpos] at hstep
      exact ⟨wd, (Option.some.inj (congrArg Prod.fst hstep)).symm, hpos⟩
    · rw [if_neg hpos] at hstep
      simp at hstep

theorem regularItemStep_bounds (sorted : List (NodeR × ℚ)) (requestId : String)
    (t : ℚ) (pool : List Batch) (item : RequestItem) (a : Allocation)
    (pool2 : List Batch)
    (hstep : regularItemStep sorted requestId t pool item = (some a, pool2)) :
    0 < a.allocated_kg ∧ a.allocated_kg ≤ a.required_kg
      ∧ a.allocated_kg ≤ (a.batches.map (fun u => u.quantity)).sum := by
  rcases regularItemStep_some sorted requestId t pool item a pool2 hstep
    with ⟨wd, ha, hpos⟩
  subst ha
  refine ⟨hpos, ?_, ?_⟩
  · show item.required_kg - _ ≤ item.required_kg
    by_cases hreq : 0 ≤ item.required_kg
    · have h := consumeBatches_remaining_nonneg recordedFreshness
        (regularCandidates pool item wd.1.id t) item.required_kg pool hreq
      linarith
    · push_neg at hreq
      rw [consumeBatches_break _ _ _ _ (le_of_lt hreq)] at hpos
      simp at hpos
  · show item.required_kg - _ ≤ _
    rw [consumeBatches_alloc_eq_sum]

theorem regularItemsLoop_sound {Q : RequestItem → Prop} {P : Allocation → Prop}
    (sorted : List (NodeR × ℚ)) (requestId : String) (t : ℚ)
    (hstep : ∀ (pool : List Batch) (item : RequestItem) (a : Allocation)
      (pool2 : List Batch), Q item →
      regularItemStep sorted requestId t pool item = (some a, pool2) → P a) :
    ∀ (items : List RequestItem) (pool : List Batch), (∀ item ∈ items, Q item) →
      ∀ a ∈ (regularItemsLoop sorted requestId t items pool).1, P a := by
  intro items
  induction items with
  | nil =>
    intro pool _ a ha
    simp [regularItemsLoop] at ha
  | cons item rest ih =>
    intro pool hQ a ha
    unfold regularItemsLoop at ha
    dsimp only at ha
    cases hs : (regularItemStep sorted requestId t pool item).1 with
    | some a0 =>
      rw [hs] at ha
      have hs2 : regularItemStep sorted requestId t pool item
          = (some a0, (regularItemStep sorted requestId t pool item).2) := by
        rw [← hs]
      rcases List.mem_cons.mp ha with rfl | h2
      · exact hstep pool item a _ (hQ item (List.mem_cons_self _ _)) hs2
      · exact ih _ (fun i hi => hQ i (List.mem_cons_of_mem _ hi)) a h2
    | none =>
      rw [hs] at ha
      exact ih _ (fun i hi => hQ i (List.mem_cons_of_mem _ hi)) a ha

theorem regularRequestsLoop_sound {Q : RequestItem → Prop} {P : Allocation → Prop}
    (dist : NodeR → NodeR → ℚ) (now : ℚ) (warehouses ngos : List NodeR)
    (ngoOrgs : List NgoOrg) (opts : AllocOptions)
    (hstep : ∀ (sorted : List (NodeR × ℚ)) (requestId : String) (t : ℚ)
      (pool : List Batch) (item : RequestItem) (a : Allocation)
      (pool2 : List Batch), Q item →
      regularItemStep sorted requestId t pool item = (some a, pool2) → P a) :
    ∀ (requests : List Request) (pool : List Batch),
      (∀ r ∈ requests, ∀ item ∈ r.items, Q item) →
      ∀ a ∈ (regularRequestsLoop dist now warehouses ngos ngoOrgs opts
        requests pool).1, P a := by
  intro requests
  induction requests with
  | nil =>
    intro pool _ a ha
    simp [regularRequestsLoop] at ha
  | cons r rest ih =>
    intro pool hQ a ha
    unfold regularRequestsLoop at ha
    cases ho : ngoOrgs.find? (fun o => o.id = r.requesterNode) with
    | none =>
      rw [ho] at ha
      exact ih _ (fun r2 hr2 => hQ r2 (List.mem_cons_of_mem _ hr2)) a ha
    | some org =>
      rw [ho] at ha
      dsimp only at ha
      cases hn : ngos.find? (fun n => n.name = org.name) with
      | none =>
        rw [hn] at ha
        exact ih _ (fun r2 hr2 => hQ r2 (List.mem_cons_of_mem _ hr2)) a ha
      | some ngoNode =>
        rw [hn] at ha
        dsimp only at ha
        by_cases hemp : (warehousesByDistance dist ngoNode warehouses).isEmpty
        · rw [if_pos hemp] at ha
          exact ih _ (fun r2 hr2 => hQ r2 (List.mem_cons_of_mem _ hr2)) a ha
        · rw [if_neg hemp] at ha
          rcases List.mem_append.mp ha with h1 | h2
          · exact regularItemsLoop_sound _ _ _
              (fun pool3 item a3 pool4 hq hst => hstep _ _ _ pool3 item a3 pool4 hq hst)
              r.items pool (hQ r (List.mem_cons_self _ _)) a h1
          · exact ih _ (fun r2 hr2 => hQ r2 (List.mem_cons_of_mem _ hr2)) a h2

theorem allocateRegular_sound {Q : RequestItem → Prop} {P : Allocation → Prop}
    (dist : NodeR → NodeR → ℚ) (now : ℚ) (requests : List Request)
    (batches : List Batch) (warehouses ngos : List NodeR) (ngoOrgs : List NgoOrg)
    (opts : AllocOptions)
    (hstep : ∀ (sorted : List (NodeR × ℚ)) (requestId : String) (t : ℚ)
      (pool : List Batch) (item : RequestItem) (a : Allocation)
      (pool2 : List Batch), Q item →
      regularItemStep sorted requestId t pool item = (some a, pool2) → P a)
    (hQ : ∀ r ∈ requests, ∀ item ∈ r.items, Q item) :
    ∀ a ∈ allocateRegular dist now requests batches warehouses ngos ngoOrgs opts,
      P a :=
  regularRequestsLoop_sound dist now warehouses ngos ngoOrgs opts hstep
    requests batches hQ

theorem mlCandidateBatches_mem {pool : List Batch} {item : RequestItem}
    {w : NodeR} {dispatchTime deliveryTime : ℚ} {c : CandM}
    (hc : c ∈ mlCandidateBatches pool item w dispatchTime deliveryTime) :
    c.batch ∈ pool ∧ 0 < c.freshnessAtDelivery
      ∧ c.freshnessAtDelivery = calculateFreshnessPct c.batch deliveryTime 25 := by
  unfold mlCandidateBatches at hc
  have h1 := List.mem_filter.mp hc
  rcases List.mem_map.mp h1.1 with ⟨b0, hb0, rfl⟩
  have h2 := List.mem_filter.mp hb0
  refine ⟨h2.1, ?_, rfl⟩
  have h3 := h1.2
  simp only [Bool.and_eq_true, decide_eq_true_eq] at h3
  exact h3.2

theorem mlTierBatches_subset (cands : List CandM) :
    ∀ c ∈ (mlTierBatches cands).1, c ∈ cands := by
  unfold mlTierBatches
  intro c hc
  dsimp only at hc
  split at hc
  · exact (List.mem_filter.mp ((jsSortBy_perm _ _).mem_iff.mp hc)).1
  · split at hc
    · exact (List.mem_filter.mp ((jsSortBy_perm _ _).mem_iff.mp hc)).1
    · split at hc
      · exact (List.mem_filter.mp ((jsSortBy_perm _ _).mem_iff.mp hc)).1
      · cases hc

/-- The invariant carried by a best-candidate slot: when a warehouse is
recorded, every recorded batch entry is a pool batch whose
freshness-at-delivery field is positive and was computed at the delivery
time of that warehouse. -/
def bestBatchesOk (dist : NodeR → NodeR → ℚ) (pool : List Batch)
    (dispatchTime : ℚ) (ngoNode : NodeR) (wOpt : Option NodeR)
    (cs : List CandM) : Prop :=
  ∀ w, wOpt = some w → ∀ c ∈ cs,
    c.batch ∈ pool ∧ 0 < c.freshnessAtDelivery ∧
    c.freshnessAtDelivery = calculateFreshnessPct c.batch
      (dispatchTime + estimateTravelHours (dist ngoNode w) * 3600 * 1000) 25

theorem mlEvalWarehouse_cases (expO : ℚ → ℚ) (pool : List Batch)
    (item : RequestItem) (dispatchTime boost : ℚ) (best : MLBest)
    (wd : NodeR × ℚ) :
    (((mlEvalWarehouse expO pool item dispatchTime boost best wd).warehouseOverall
        = best.warehouseOverall
      ∧ (mlEvalWarehouse expO pool item dispatchTime boost best wd).batchesOverall
        = best.batchesOverall)
     ∨ ((mlEvalWarehouse expO pool item dispatchTime boost best wd).warehouseOverall
        = some wd.1
      ∧ (mlEvalWarehouse expO pool item dispatchTime boost best wd).batchesOverall
        = (mlTierBatches (mlCandidateBatches pool item wd.1 dispatchTime
            (dispatchTime + estimateTravelHours wd.2 * 3600 * 1000))).1))
    ∧ (((mlEvalWarehouse expO pool item dispatchTime boost best wd).warehouseInCap
        = best.warehouseInCap
      ∧ (mlEvalWarehouse expO pool item dispatchTime boost best wd).batchesInCap
        = best.batchesInCap)
     ∨ ((mlEvalWarehouse expO pool item dispatchTime boost best wd).warehouseInCap
        = some wd.1
      ∧ (mlEvalWarehouse expO pool item dispatchTime boost best wd).batchesInCap
        = (mlTierBatches (mlCandidateBatches pool item wd.1 dispatchTime
            (dispatchTime + estimateTravelHours wd.2 * 3600 * 1000))).1)) := by
  unfold mlEvalWarehouse
  dsimp only
  split
  · exact ⟨Or.inl ⟨rfl, rfl⟩, Or.inl ⟨rfl, rfl⟩⟩
  · refine ⟨?_, ?_⟩ <;>
      (split <;> (try split) <;>
        first
        | exact Or.inl ⟨rfl, rfl⟩
        | exact Or.inr ⟨rfl, rfl⟩)

theorem mlEvalWarehouse_inv (dist : NodeR → NodeR → ℚ) (expO : ℚ → ℚ)
    (pool : List Batch) (item : RequestItem) (dispatchTime boost : ℚ)
    (ngoNode : NodeR) (best : MLBest) (wd : NodeR × ℚ)
    (hwd : wd.2 = dist ngoNode wd.1)
    (hO : bestBatchesOk dist pool dispatchTime ngoNode best.warehouseOverall
      best.batchesOverall)
    (hI : bestBatchesOk dist pool dispatchTime ngoNode best.warehouseInCap
      best.batchesInCap) :
    bestBatchesOk dist pool dispatchTime ngoNode
      (mlEvalWarehouse expO pool item dispatchTime boost best wd).warehouseOverall
      (mlEvalWarehouse expO pool item dispatchTime boost best wd).batchesOverall
    ∧ bestBatchesOk dist pool dispatchTime ngoNode
      (mlEvalWarehouse expO pool item dispatchTime boost best wd).warehouseInCap
      (mlEvalWarehouse expO pool item dispatchTime boost best wd).batchesInCap := by
  have htier : ∀ c ∈ (mlTierBatches (mlCandidateBatches pool item wd.1 dispatchTime
      (dispatchTime + estimateTravelHours wd.2 * 3600 * 1000))).1,
      c.batch ∈ pool ∧ 0 < c.freshnessAtDelivery ∧
      c.freshnessAtDelivery = calculateFreshnessPct c.batch
        (dispatchTime + estimateTravelHours (dist ngoNode wd.1) * 3600 * 1000) 25 := by
    intro c hc
    have h := mlCandidateBatches_mem (mlTierBatches_subset _ c hc)
    exact ⟨h.1, h.2.1, by rw [← hwd]; exact h.2.2⟩
  rcases mlEvalWarehouse_cases expO pool item dispatchTime boost best wd
    with ⟨hOv | hOv, hIn | hIn⟩ <;>
    constructor <;>
    first
    | (rw [hOv.1, hOv.2]; exact hO)
    | (rw [hIn.1, hIn.2]; exact hI)
    | (rw [hOv.1, hOv.2]
       intro w hw c hc
       have hww := Option.some.inj hw
       subst hww
       exact htier c hc)
    | (rw [hIn.1, hIn.2]
       intro w hw c hc
       have hww := Option.some.inj hw
       subst hww
       exact htier c hc)

theorem mlEvaluate_inv (dist : NodeR → NodeR → ℚ) (expO : ℚ → ℚ)
    (pool : List Batch) (item : RequestItem) (dispatchTime boost : ℚ)
    (ngoNode : NodeR) :
    ∀ (cands : List (NodeR × ℚ)) (best : MLBest),
      (∀ wd ∈ cands, wd.2 = dist ngoNode wd.1) →
      bestBatchesOk dist pool dispatchTime ngoNode best.warehouseOverall
        best.batchesOverall →
      bestBatchesOk dist pool dispatchTime ngoNode best.warehouseInCap
        best.batchesInCap →
      bestBatchesOk dist pool dispatchTime ngoNode
        (mlEvaluate expO pool item dispatchTime boost best cands).warehouseOverall
        (mlEvaluate expO pool item dispatchTime boost best cands).batchesOverall
      ∧ bestBatchesOk dist pool dispatchTime ngoNode
        (mlEvaluate expO pool item dispatchTime boost best cands).warehouseInCap
        (mlEvaluate expO pool item dispatchTime boost best cands).batchesInCap := by
  intro cands
  induction cands with
  | nil =>
    intro best _ hO hI
    exact ⟨hO, hI⟩
  | cons wd rest ih =>
    intro best hcands hO hI
    have hstep := mlEvalWarehouse_inv dist expO pool item dispatchTime boost
      ngoNode best wd (hcands wd (List.mem_cons_self _ _)) hO hI
    exact ih (mlEvalWarehouse expO pool item dispatchTime boost best wd)
      (fun w hw => hcands w (List.mem_cons_of_mem _ hw)) hstep.1 hstep.2

theorem mlAllCandidates_dist (dist : NodeR → NodeR → ℚ) (warehouses : List NodeR)
    (ngoNode : NodeR) :
    ∀ wd ∈ mlAllCandidates dist warehouses ngoNode, wd.2 = dist ngoNode wd.1 := by
  intro wd hwd
  unfold mlAllCandidates at hwd
  have h1 := (jsSortBy_perm _ _).mem_iff.mp hwd
  have h2 := (List.mem_filter.mp h1).1
  rcases List.mem_map.mp h2 with ⟨w, _, rfl⟩
  rfl

theorem mlBestState_ok (dist : NodeR → NodeR → ℚ) (expO : ℚ → ℚ)
    (warehouses : List NodeR) (ngoNode : NodeR) (dispatchTime boost : ℚ)
    (pool : List Batch) (item : RequestItem) :
    bestBatchesOk dist pool dispatchTime ngoNode
      (mlBestState dist expO warehouses ngoNode dispatchTime boost pool item).warehouseOverall
      (mlBestState dist expO warehouses ngoNode dispatchTime boost pool item).batchesOverall
    ∧ bestBatchesOk dist pool dispatchTime ngoNode
      (mlBestState dist expO warehouses ngoNode dispatchTime boost pool item).warehouseInCap
      (mlBestState dist expO warehouses ngoNode dispatchTime boost pool item).batchesInCap := by
  have hall := mlAllCandidates_dist dist warehouses ngoNode
  have hprim : ∀ wd ∈ (mlAllCandidates dist warehouses ngoNode).take
      (Nat.max 1 topKWarehouses), wd.2 = dist ngoNode wd.1 :=
    fun wd hwd => hall wd (List.mem_of_mem_take hwd)
  have hinitO : bestBatchesOk dist pool dispatchTime ngoNode
      initMLBest.warehouseOverall initMLBest.batchesOverall := by
    intro w hw
    cases hw
  have hinitI : bestBatchesOk dist pool dispatchTime ngoNode
      initMLBest.warehouseInCap initMLBest.batchesInCap := by
    intro w hw
    cases hw
  have h1 := mlEvaluate_inv dist expO pool item dispatchTime boost ngoNode
    ((mlAllCandidates dist warehouses ngoNode).take (Nat.max 1 topKWarehouses))
    initMLBest hprim hinitO hinitI
  unfold mlBestState
  dsimp only
  split
  · exact mlEvaluate_inv dist expO pool item dispatchTime boost ngoNode
      (mlAllCandidates dist warehouses ngoNode) _ hall h1.1 h1.2
  · exact h1

theorem mlItemStep_some (dist : NodeR → NodeR → ℚ) (expO : ℚ → ℚ)
    (warehouses : List NodeR) (ngoNode : NodeR) (requestId : String)
    (dispatchTime boost : ℚ) (pool : List Batch) (item : RequestItem)
    (a : Allocation) (pool2 : List Batch)
    (hstep : mlItemStep dist expO warehouses ngoNode requestId dispatchTime boost
      pool item = (some a, pool2)) :
    ∃ (bw : NodeR) (bestBatches : List CandM),
      a = { requestId := requestId
            foodType := item.foodType
            required_kg := item.required_kg
            allocated_kg := item.required_kg
              - (consumeBatches (fun b => calculateFreshnessPct b dispatchTime 25)
                  (bestBatches.map (fun c => c.batch)) item.required_kg pool).2.1
            warehouse := bw.id
            distance_km := dist ngoNode bw
            batches := (consumeBatches (fun b => calculateFreshnessPct b dispatchTime 25)
              (bestBatches.map (fun c => c.batch)) item.required_kg pool).1
            strategy := "ml"
            dispatchTime := dispatchTime }
      ∧ (∀ c ∈ bestBatches, c.batch ∈ pool ∧ 0 < c.freshnessAtDelivery ∧
          c.freshnessAtDelivery = calculateFreshnessPct c.batch
            (dispatchTime + estimateTravelHours (dist ngoNode bw) * 3600 * 1000) 25) := by
  have hok := mlBestState_ok dist expO warehouses ngoNode dispatchTime boost pool item
  unfold mlItemStep at hstep
  dsimp only at hstep
  by_cases hcap : ((mlBestState dist expO warehouses ngoNode dispatchTime boost
      pool item).warehouseInCap.isSome
    && decide (minInCapFulfillment ≤ (mlBestState dist expO warehouses ngoNode
      dispatchTime boost pool item).fulfillInCap)) = true
  · rw [if_pos hcap, if_pos hcap] at hstep
    cases hbw : (mlBestState dist expO warehouses ngoNode dispatchTime boost
        pool item).warehouseInCap with
    | none =>
      rw [hbw] at hstep
      simp at hstep
    | some bw =>
      rw [hbw] at hstep
      refine ⟨bw, (mlBestState dist expO warehouses ngoNode dispatchTime boost
        pool item).batchesInCap,
        (Option.some.inj (congrArg Prod.fst hstep)).symm, hok.2 bw hbw⟩
  · rw [if_neg hcap, if_neg hcap] at hstep
    cases hbw : (mlBestState dist expO warehouses ngoNode dispatchTime boost
        pool item).warehouseOverall with
    | none =>
      rw [hbw] at hstep
      simp at hstep
    | some bw =>
      rw [hbw] at hstep
      refine ⟨bw, (mlBestState dist expO warehouses ngoNode dispatchTime boost
        pool item).batchesOverall,
        (Option.some.inj (congrArg Prod.fst hstep)).symm, hok.1 bw hbw⟩

theorem mlItemsLoop_sound {Q : RequestItem → Prop} {P : Allocation → Prop}
    (dist : NodeR → NodeR → ℚ) (expO : ℚ → ℚ) (warehouses : List NodeR)
    (ngoNode : NodeR) (requestId : String) (dispatchTime boost : ℚ)
    (hstep : ∀ (pool : List Batch) (item : RequestItem) (a : Allocation)
      (pool2 : List Batch), Q item →
      mlItemStep dist expO warehouses ngoNode requestId dispatchTime boost pool item
        = (some a, pool2) → P a) :
    ∀ (items : List RequestItem) (pool : List Batch), (∀ item ∈ items, Q item) →
      ∀ a ∈ (mlItemsLoop dist expO warehouses ngoNode requestId dispatchTime boost
        items pool).1, P a := by
  intro items
  induction items with
  | nil =>
    intro pool _ a ha
    simp [mlItemsLoop] at ha
  | cons item rest ih =>
    intro pool hQ a ha
    unfold mlItemsLoop at ha
    dsimp only at ha
    cases hs : (mlItemStep dist expO warehouses ngoNode requestId dispatchTime boost
        pool item).1 with
    | some a0 =>
      rw [hs] at ha
      have hs2 : mlItemStep dist expO warehouses ngoNode requestId dispatchTime boost
          pool item
          = (some a0, (mlItemStep dist expO warehouses ngoNode requestId dispatchTime
              boost pool item).2) := by
        rw [← hs]
      rcases List.mem_cons.mp ha with rfl | h2
      · exact hstep pool item a _ (hQ item (List.mem_cons_self _ _)) hs2
      · exact ih _ (fun i hi => hQ i (List.mem_cons_of_mem _ hi)) a h2
    | none =>
      rw [hs] at ha
      exact ih _ (fun i hi => hQ i (List.mem_cons_of_mem _ hi)) a ha

theorem mlRequestsLoop_sound {Q : RequestItem → Prop} {P : Allocation → Prop}
    (dist : NodeR → NodeR → ℚ) (expO : ℚ → ℚ) (now : ℚ)
    (warehouses ngos : List NodeR) (ngoOrgs : List NgoOrg) (opts : MLOptions)
    (signals : List (String × Bool))
    (hstep : ∀ (ngoNode : NodeR) (requestId : String) (dispatchTime boost : ℚ)
      (pool : List Batch) (item : RequestItem) (a : Allocation)
      (pool2 : List Batch), Q item →
      mlItemStep dist expO warehouses ngoNode requestId dispatchTime boost pool item
        = (some a, pool2) → P a) :
    ∀ (requests : List Request) (pool : List Batch),
      (∀ r ∈ requests, ∀ item ∈ r.items, Q item) →
      ∀ a ∈ (mlRequestsLoop dist expO now warehouses ngos ngoOrgs opts signals
        requests pool).1, P a := by
  intro requests
  induction requests with
  | nil =>
    intro pool _ a ha
    simp [mlRequestsLoop] at ha
  | cons r rest ih =>
    intro pool hQ a ha
    unfold mlRequestsLoop at ha
    cases ho : ngoOrgs.find? (fun o => o.id = r.requesterNode) with
    | none =>
      rw [ho] at ha
      exact ih _ (fun r2 hr2 => hQ r2 (List.mem_cons_of_mem _ hr2)) a ha
    | some org =>
      rw [ho] at ha
      dsimp only at ha
      cases hn : ngos.find? (fun n => n.name = org.name) with
      | none =>
        rw [hn] at ha
        exact ih _ (fun r2 hr2 => hQ r2 (List.mem_cons_of_mem _ hr2)) a ha
      | some ngoNode =>
        rw [hn] at ha
        dsimp only at ha
        rcases List.mem_append.mp ha with h1 | h2
        · exact mlItemsLoop_sound dist expO warehouses ngoNode r.requestID
            (mlDispatchTime opts now r) (urgencyBoostOf signals ngoNode)
            (fun pool3 item a3 pool4 hq hst => hstep _ _ _ _ pool3 item a3 pool4 hq hst)
            r.items pool (hQ r (List.mem_cons_self _ _)) a h1
        · exact ih _ (fun r2 hr2 => hQ r2 (List.mem_cons_of_mem _ hr2)) a h2

theorem allocateML_sound {Q : RequestItem → Prop} {P : Allocation → Prop}
    (dist : NodeR → NodeR → ℚ) (expO : ℚ → ℚ) (now : ℚ)
    (requests : List Request) (batches : List Batch)
    (warehouses ngos : List NodeR) (ngoOrgs : List NgoOrg) (opts : MLOptions)
    (signalResult : Except Unit (List SignalRow))
    (plannerResult : Except Unit (List TransferSuggestion))
    (hstep : ∀ (ngoNode : NodeR) (requestId : String) (dispatchTime boost : ℚ)
      (pool : List Batch) (item : RequestItem) (a : Allocation)
      (pool2 : List Batch), Q item →
      mlItemStep dist expO warehouses ngoNode requestId dispatchTime boost pool item
        = (some a, pool2) → P a)
    (hQ : ∀ r ∈ requests, ∀ item ∈ r.items, Q item) :
    ∀ a ∈ (allocateML dist expO now requests batches warehouses ngos ngoOrgs opts
      signalResult plannerResult).1, P a := by
  intro a ha
  unfold allocateML at ha
  dsimp only at ha
  exact mlRequestsLoop_sound dist expO now warehouses ngos ngoOrgs opts
    (regionalSignalsOf signalResult) hstep requests _ hQ a ha

/-- C5 (amended).  When perishability metadata is present,
remainingShelfLifeHours returns shelfLife / tempFactor - elapsedHours floored
at 0 whenever the rounded freshness percentage at that time is positive; when
the rounded freshness is at most 0 it returns 0 even if the unrounded
formula value is still slightly positive (the early spoilage return fires on
the rounded value).  The sort-key wrapper safeRemainingShelfLifeHours returns
positive infinity (modelled as none) when the batch has no manufacture date
or no positive shelf life, so non-perishables never block selection. -/
theorem remainingShelfLifeHours_formula :
    (∀ (b : Batch) (t temp m s : ℚ),
      b.manufacture_date = some m → b.shelf_life_hours = some s →
      (0 < calculateFreshnessPct b t temp →
        remainingShelfLifeHours b t temp
          = some (jmax 0 (s / tempFactor temp - (t - m) / msPerHour)))
      ∧ (calculateFreshnessPct b t temp ≤ 0 →
        remainingShelfLifeHours b t temp = some 0))
    ∧ (∀ (b : Batch) (t : ℚ),
        hasPositiveShelfLife b = false ∨ b.manufacture_date = none →
        safeRemainingShelfLifeHours b t = none) := by
  constructor
  · intro b t temp m s hm hs
    constructor
    · intro hpos
      unfold remainingShelfLifeHours
      rw [if_neg (not_le.mpr hpos), hm, hs]
    · intro hne
      unfold remainingShelfLifeHours
      rw [if_pos hne]
  · intro b t h
    unfold safeRemainingShelfLifeHours
    cases h with
    | inl h1 => simp [h1]
    | inr h2 => simp [h2]

/-- Witness for C5: both metadata branches applied at concrete inputs. -/
theorem remainingShelfLifeHours_formula_witness :
    remainingShelfLifeHours (mkBatch "s3w" "rice" "w1" 5 (some 0) (some 10))
        (2 * msPerHour) 25
      = some (jmax 0 ((10 : ℚ) / tempFactor 25 - (2 * msPerHour - 0) / msPerHour))
    ∧ safeRemainingShelfLifeHours (mkBatch "s3n" "rice" "w1" 5 none none) 0 = none :=
  ⟨(remainingShelfLifeHours_formula.1
      (mkBatch "s3w" "rice" "w1" 5 (some 0) (some 10)) (2 * msPerHour) 25 0 10
      rfl rfl).1 (by
        norm_num [calculateFreshnessPct, mkBatch, round2, jsRound, msPerHour,
          tempFactor, jmax]),
   remainingShelfLifeHours_formula.2 (mkBatch "s3n" "rice" "w1" 5 none none) 0
     (Or.inl (by rfl))⟩

/-- Counterexample for C5 as frozen: with shelf life 100000h at 20 degrees,
99996 elapsed hours leave 4 hours by the inverse formula, but the rounded
freshness is already 0 (raw value 0.004 rounds to 0.00), so the code
returns 0 instead of 4. -/
theorem remainingShelfLifeHours_rounding_counterexample :
    remainingShelfLifeHours (mkBatch "c5" "rice" "w1" 1 (some 0) (some 100000))
        (99996 * msPerHour) 20 = some 0
    ∧ jmax 0 ((100000 : ℚ) / tempFactor 20 - (99996 * msPerHour - 0) / msPerHour) = 4
    ∧ remainingShelfLifeHours (mkBatch "c5" "rice" "w1" 1 (some 0) (some 100000))
        (99996 * msPerHour) 20
      ≠ some (jmax 0 ((100000 : ℚ) / tempFactor 20 - (99996 * msPerHour - 0) / msPerHour)) := by
  refine ⟨?_, ?_, ?_⟩ <;>
    norm_num [calculateFreshnessPct, specFreshnessPct, remainingShelfLifeHours,
      safeRemainingShelfLifeHours, hasPositiveShelfLife, mkBatch, round2, jsRound,
      msPerHour, tempFactor, jmax, jmin]

/-- The NGO organization of the concrete demonstration runs. -/
def demoOrg : NgoOrg := { id := "o1", name := "ngo1" }

/-- The NGO node of the concrete demonstration runs. -/
def demoNode : NodeR :=
  { id := "n1", name := "ngo1", state := none, district := none,
    regionId := none, capacity_kg := none }

/-- The warehouse of the concrete demonstration runs. -/
def demoW : NodeR :=
  { id := "w1", name := "w1", state := none, district := none,
    regionId := none, capacity_kg := none }

/-- The stored batch of the concrete demonstration runs: 50 kg of rice,
48h shelf life, manufactured at the epoch. -/
def demoBatch : Batch := mkBatch "b1" "rice" "w1" 50 (some 0) (some 48)

/-- The request of the concrete demonstration runs: 30 kg of rice created
at the epoch. -/
def demoRequest : Request :=
  { requestID := "r1", requesterNode := "o1",
    items := [{ foodType := "rice", required_kg := 30 }],
    createdOn := some 0, dispatchTime := none }

/-- Scored-allocator options of the demonstration runs: transfer planner
disabled, default thresholds. -/
def demoMLOpts : MLOptions :=
  { referenceDate := none, dispatchTimeFloor := none, dispatchTimeCeil := none,
    enableTransferPlanner := false, overstock := 4/5, understock := 2/5,
    target := 3/5, minTransferKg := 200, maxPairs := 5 }

/-- The baseline allocation the demonstration run produces. -/
def demoRegAlloc : Allocation :=
  { requestId := "r1", foodType := "rice", required_kg := 30,
    allocated_kg := 30, warehouse := "w1", distance_km := 0,
    batches := [{ batchId := "b1", quantity := 30, freshness := 100 }],
    strategy := "regular", dispatchTime := 0 }

/-- The scored allocation the demonstration run produces. -/
def demoMLAlloc : Allocation :=
  { requestId := "r1", foodType := "rice", required_kg := 30,
    allocated_kg := 30, warehouse := "w1", distance_km := 0,
    batches := [{ batchId := "b1", quantity := 30, freshness := 100 }],
    strategy := "ml", dispatchTime := 0 }

/-- The batch of the C1 counterexample: 40 kg of rice with 8h shelf life,
manufactured at the epoch, so it is fresh at dispatch but fully spoiled
after the 11h travel estimate for 400 km. -/
def c1Batch : Batch := mkBatch "bS" "rice" "w1" 40 (some 0) (some 8)

/-- The request of the C7 counterexample: a negative requirement of -1 kg. -/
def c7Request : Request :=
  { requestID := "r7", requesterNode := "o1",
    items := [{ foodType := "rice", required_kg := -1 }],
    createdOn := some 0, dispatchTime := none }

/-- The allocation the scored allocator produces for the C7 counterexample:
allocated 0 kg against a required -1 kg, violating allocated <= required. -/
def c7Alloc : Allocation :=
  { requestId := "r7", foodType := "rice", required_kg := -1,
    allocated_kg := 0, warehouse := "w1", distance_km := 0,
    batches := [], strategy := "ml", dispatchTime := 0 }

/-- The zero-quantity non-perishable batch of the C10 scenario. -/
def c10ZeroBatch : Batch := mkBatch "bz" "rice" "w1" 0 none none

/-- The allocation the scored allocator produces for the C10 scenario:
allocated_kg = 0 with a batch reference, a record the baseline positivity
guard would have suppressed. -/
def c10Alloc : Allocation :=
  { requestId := "r1", foodType := "rice", required_kg := 30,
    allocated_kg := 0, warehouse := "w1", distance_km := 0,
    batches := [{ batchId := "bz", quantity := 0, freshness := 100 }],
    strategy := "ml", dispatchTime := 0 }

theorem mlItemStep_bounds (dist : NodeR → NodeR → ℚ) (expO : ℚ → ℚ)
    (warehouses : List NodeR) (ngoNode : NodeR) (requestId : String)
    (dispatchTime boost : ℚ) (pool : List Batch) (item : RequestItem)
    (a : Allocation) (pool2 : List Batch) (hreq : 0 ≤ item.required_kg)
    (hstep : mlItemStep dist expO warehouses ngoNode requestId dispatchTime boost
      pool item = (some a, pool2)) :
    a.allocated_kg ≤ a.required_kg
      ∧ a.allocated_kg ≤ (a.batches.map (fun u => u.quantity)).sum := by
  rcases mlItemStep_some dist expO warehouses ngoNode requestId dispatchTime boost
    pool item a pool2 hstep with ⟨bw, bb, ha, _⟩
  subst ha
  refine ⟨?_, ?_⟩
  · show item.required_kg - _ ≤ item.required_kg
    have h := consumeBatches_remaining_nonneg
      (fun b => calculateFreshnessPct b dispatchTime 25)
      (bb.map (fun c => c.batch)) item.required_kg pool hreq
    linarith
  · show item.required_kg - _ ≤ _
    rw [consumeBatches_alloc_eq_sum]

theorem demoRegAlloc_mem :
    demoRegAlloc ∈ allocateRegular (fun _ _ => 0) 0 [demoRequest] [demoBatch]
      [demoW] [demoNode] [demoOrg]
      { dispatchTimeFloor := none, dispatchTimeCeil := none } := by
  norm_num +decide [allocateRegular, regularRequestsLoop, regularDispatchTime,
    clampDispatch, warehousesByDistance, regularItemsLoop, regularItemStep,
    pickSourceWarehouse, regularCandidates, regularCandEntries, regularEligible,
    availableBy, regularLt, regularTieTime, recordedFreshness, consumeBatches,
    removeFirstById, subQuantityFirst, jsSortBy, jsInsert,
    safeRemainingShelfLifeHours, hasPositiveShelfLife, remainingShelfLifeHours,
    calculateFreshnessPct, tempFactor, round2, jsRound, msPerHour, jmax, jmin,
    mkBatch, demoOrg, demoNode, demoW, demoBatch, demoRequest, demoRegAlloc,
    Option.orElse, Option.getD]

theorem demoMLAlloc_mem :
    demoMLAlloc ∈ (allocateML (fun _ _ => 0) (fun _ => 1) 0 [demoRequest]
      [demoBatch] [demoW] [demoNode] [demoOrg] demoMLOpts
      (Except.ok []) (Except.ok [])).1 := by
  norm_num +decide [allocateML, mlPlannerPhase, initPlannerDebug, mlRequestsLoop,
    mlDispatchTime, clampDispatch, urgencyBoostOf, signalLookup, regionKey,
    regionalSignalsOf, mlItemsLoop, mlItemStep, mlBestState, mlAllCandidates,
    mlEvaluate, mlEvalWarehouse, mlCandidateBatches, mlTierBatches, mlLt,
    mlScore, mlWeightedGo, scoreGt, initMLBest, estimateTravelHours, availableBy,
    consumeBatches, subQuantityFirst, removeFirstById, jsSortBy, jsInsert,
    safeRemainingShelfLifeHours, hasPositiveShelfLife, remainingShelfLifeHours,
    calculateFreshnessPct, tempFactor, round2, jsRound, msPerHour, jmax, jmin,
    mkBatch, topKWarehouses, hardMaxDistanceKm, maxPreferredDistanceKm,
    distanceDecayKm, preferredMinDeliveredFreshnessPct,
    relaxedMinDeliveredFreshnessPct, minInCapFulfillment,
    List.take_of_length_le, demoOrg, demoNode, demoW, demoBatch, demoRequest,
    demoMLOpts, demoMLAlloc, Option.orElse, Option.getD]

/-- C1 (amended).  Every allocation the scored allocator's per-item step
produces references only batches of the current pool whose projected
freshness at the delivery timestamp (the allocation's dispatch time plus the
travel-time estimate for its distance) is strictly positive.  The baseline
allocator checks freshness only at the dispatch timestamp and can ship
batches that are fully spoiled on arrival, and no override flag exists in
the code. -/
theorem ml_no_spoiled_at_delivery (dist : NodeR → NodeR → ℚ) (expO : ℚ → ℚ)
    (warehouses : List NodeR) (ngoNode : NodeR) (requestId : String)
    (dispatchTime boost : ℚ) (pool : List Batch) (item : RequestItem)
    (a : Allocation) (pool2 : List Batch)
    (hstep : mlItemStep dist expO warehouses ngoNode requestId dispatchTime boost
      pool item = (some a, pool2)) :
    ∀ u ∈ a.batches, ∃ b ∈ pool, u.batchId = b.id ∧
      0 < calculateFreshnessPct b
        (a.dispatchTime + estimateTravelHours a.distance_km * 3600 * 1000) 25 := by
  rcases mlItemStep_some dist expO warehouses ngoNode requestId dispatchTime boost
    pool item a pool2 hstep with ⟨bw, bb, ha, hprop⟩
  subst ha
  intro u hu
  rcases consumeBatches_used_mem (fun b => calculateFreshnessPct b dispatchTime 25)
    (bb.map (fun c => c.batch)) item.required_kg pool u hu with ⟨b0, hb0, hid⟩
  rcases List.mem_map.mp hb0 with ⟨c, hc, rfl⟩
  have h := hprop c hc
  refine ⟨c.batch, h.1, hid, ?_⟩
  have h2 := h.2.1
  rw [h.2.2] at h2
  exact h2

/-- Witness for C1: in the demonstration run the referenced batch is the
pool batch b1, and its projected freshness at the delivery timestamp of the
produced allocation is positive. -/
theorem ml_no_spoiled_at_delivery_witness :
    ("b1" : String) = demoBatch.id
      ∧ 0 < calculateFreshnessPct demoBatch
        (demoMLAlloc.dispatchTime
          + estimateTravelHours demoMLAlloc.distance_km * 3600 * 1000) 25 := by
  rcases ml_no_spoiled_at_delivery (fun _ _ => 0) (fun _ => 1) [demoW] demoNode
      "r1" 0 1 [demoBatch] { foodType := "rice", required_kg := 30 } demoMLAlloc
      [{ demoBatch with quantity_kg := 20 }]
      (by
        norm_num +decide [mlItemStep, mlBestState, mlAllCandidates, mlEvaluate,
          mlEvalWarehouse, mlCandidateBatches, mlTierBatches, mlLt, mlScore,
          mlWeightedGo, scoreGt, initMLBest, estimateTravelHours, availableBy,
          consumeBatches, subQuantityFirst, removeFirstById, jsSortBy, jsInsert,
          safeRemainingShelfLifeHours, hasPositiveShelfLife,
          remainingShelfLifeHours, calculateFreshnessPct, tempFactor, round2,
          jsRound, msPerHour, jmax, jmin, mkBatch, topKWarehouses,
          hardMaxDistanceKm, maxPreferredDistanceKm, distanceDecayKm,
          preferredMinDeliveredFreshnessPct, relaxedMinDeliveredFreshnessPct,
          minInCapFulfillment, List.take_of_length_le, demoW, demoNode,
          demoBatch, demoMLAlloc, Option.orElse, Option.getD])
      { batchId := "b1", quantity := 30, freshness := 100 }
      (by norm_num [demoMLAlloc]) with ⟨b, hb, hid, hpos⟩
  rw [List.mem_singleton] at hb
  subst hb
  exact ⟨hid, hpos⟩

/-- Counterexample for C1 as frozen: the baseline allocator ships batch bS
(fresh at dispatch) over a 400 km route whose travel estimate is 11h, yet
that batch's projected freshness at the delivery timestamp is 0, and no
override flag was set anywhere. -/
theorem regular_spoiled_at_delivery_counterexample :
    (allocateRegular (fun _ _ => 400) 0 [demoRequest] [c1Batch] [demoW]
        [demoNode] [demoOrg]
        { dispatchTimeFloor := none, dispatchTimeCeil := none }).map
        (fun a => a.batches.map (fun u => u.batchId)) = [["bS"]]
    ∧ estimateTravelHours 400 = 11
    ∧ calculateFreshnessPct c1Batch
        ((0 : ℚ) + estimateTravelHours 400 * 3600 * 1000) 25 = 0 := by
  refine ⟨?_, ?_, ?_⟩ <;>
    norm_num +decide [allocateRegular, regularRequestsLoop, regularDispatchTime,
      clampDispatch, warehousesByDistance, regularItemsLoop, regularItemStep,
      pickSourceWarehouse, regularCandidates, regularCandEntries, regularEligible,
      availableBy, regularLt, regularTieTime, recordedFreshness, consumeBatches,
      removeFirstById, subQuantityFirst, jsSortBy, jsInsert,
      safeRemainingShelfLifeHours, hasPositiveShelfLife, remainingShelfLifeHours,
      calculateFreshnessPct, tempFactor, round2, jsRound, msPerHour, jmax, jmin,
      estimateTravelHours, mkBatch, demoOrg, demoNode, demoW, demoRequest,
      c1Batch, Option.orElse, Option.getD]

/-- C7 (amended).  Every baseline allocation satisfies both bounds
unconditionally, and every scored allocation satisfies them provided every
requested quantity is nonnegative: allocated_kg never exceeds the line
item's required_kg, and never exceeds the summed quantity of the referenced
batches.  For a negative required_kg the scored allocator can emit a record
with allocated_kg = 0 > required_kg (see the counterexample). -/
theorem allocation_bounds :
    (∀ (dist : NodeR → NodeR → ℚ) (now : ℚ) (requests : List Request)
        (batches : List Batch) (warehouses ngos : List NodeR)
        (ngoOrgs : List NgoOrg) (opts : AllocOptions),
      ∀ a ∈ allocateRegular dist now requests batches warehouses ngos ngoOrgs opts,
        a.allocated_kg ≤ a.required_kg
          ∧ a.allocated_kg ≤ (a.batches.map (fun u => u.quantity)).sum)
    ∧ (∀ (dist : NodeR → NodeR → ℚ) (expO : ℚ → ℚ) (now : ℚ)
        (requests : List Request) (batches : List Batch)
        (warehouses ngos : List NodeR) (ngoOrgs : List NgoOrg) (opts : MLOptions)
        (signalResult : Except Unit (List SignalRow))
        (plannerResult : Except Unit (List TransferSuggestion)),
      (∀ r ∈ requests, ∀ item ∈ r.items, 0 ≤ item.required_kg) →
      ∀ a ∈ (allocateML dist expO now requests batches warehouses ngos ngoOrgs
          opts signalResult plannerResult).1,
        a.allocated_kg ≤ a.required_kg
          ∧ a.allocated_kg ≤ (a.batches.map (fun u => u.quantity)).sum) := by
  constructor
  · intro dist now requests batches warehouses ngos ngoOrgs opts
    exact @allocateRegular_sound (fun _ => True)
      (fun a => a.allocated_kg ≤ a.required_kg
        ∧ a.allocated_kg ≤ (a.batches.map (fun u => u.quantity)).sum)
      dist now requests batches warehouses ngos ngoOrgs opts
      (fun sorted rid t pool item a pool2 _ hs =>
        ⟨(regularItemStep_bounds sorted rid t pool item a pool2 hs).2.1,
         (regularItemStep_bounds sorted rid t pool item a pool2 hs).2.2⟩)
      (fun _ _ _ _ => trivial)
  · intro dist expO now requests batches warehouses ngos ngoOrgs opts
      signalResult plannerResult hreq
    exact @allocateML_sound (fun item => 0 ≤ item.required_kg)
      (fun a => a.allocated_kg ≤ a.required_kg
        ∧ a.allocated_kg ≤ (a.batches.map (fun u => u.quantity)).sum)
      dist expO now requests batches warehouses ngos ngoOrgs opts
      signalResult plannerResult
      (fun ngoNode rid t boost pool item a pool2 hq hs =>
        mlItemStep_bounds dist expO warehouses ngoNode rid t boost pool item
          a pool2 hq hs)
      hreq

/-- Witness for C7: both bounds applied to the allocations of the two
concrete demonstration runs. -/
theorem allocation_bounds_witness :
    (demoRegAlloc.allocated_kg ≤ demoRegAlloc.required_kg
      ∧ demoRegAlloc.allocated_kg
        ≤ (demoRegAlloc.batches.map (fun u => u.quantity)).sum)
    ∧ (demoMLAlloc.allocated_kg ≤ demoMLAlloc.required_kg
      ∧ demoMLAlloc.allocated_kg
        ≤ (demoMLAlloc.batches.map (fun u => u.quantity)).sum) :=
  ⟨allocation_bounds.1 (fun _ _ => 0) 0 [demoRequest] [demoBatch] [demoW]
      [demoNode] [demoOrg] { dispatchTimeFloor := none, dispatchTimeCeil := none }
      demoRegAlloc demoRegAlloc_mem,
   allocation_bounds.2 (fun _ _ => 0) (fun _ => 1) 0 [demoRequest] [demoBatch]
      [demoW] [demoNode] [demoOrg] demoMLOpts (Except.ok []) (Except.ok [])
      (by
        intro r hr item hi
        rw [List.mem_singleton] at hr
        subst hr
        simp only [demoRequest, List.mem_singleton] at hi
        subst hi
        norm_num)
      demoMLAlloc demoMLAlloc_mem⟩

/-- Counterexample for C7 as frozen: with a required quantity of -1 kg the
scored allocator still emits an allocation record, with allocated_kg = 0,
which exceeds the line item's required_kg. -/
theorem allocation_bounds_counterexample :
    (allocateML (fun _ _ => 0) (fun _ => 1) 0 [c7Request] [demoBatch] [demoW]
        [demoNode] [demoOrg] demoMLOpts (Except.ok []) (Except.ok [])).1
      = [c7Alloc]
    ∧ ¬ (c7Alloc.allocated_kg ≤ c7Alloc.required_kg) := by
  constructor
  · norm_num +decide [allocateML, mlPlannerPhase, initPlannerDebug,
      mlRequestsLoop, mlDispatchTime, clampDispatch, urgencyBoostOf,
      signalLookup, regionKey, regionalSignalsOf, mlItemsLoop, mlItemStep,
      mlBestState, mlAllCandidates, mlEvaluate, mlEvalWarehouse,
      mlCandidateBatches, mlTierBatches, mlLt, mlScore, mlWeightedGo, scoreGt,
      initMLBest, estimateTravelHours, availableBy, consumeBatches,
      subQuantityFirst, removeFirstById, jsSortBy, jsInsert,
      safeRemainingShelfLifeHours, hasPositiveShelfLife, remainingShelfLifeHours,
      calculateFreshnessPct, tempFactor, round2, jsRound, msPerHour, jmax, jmin,
      mkBatch, topKWarehouses, hardMaxDistanceKm, maxPreferredDistanceKm,
      distanceDecayKm, preferredMinDeliveredFreshnessPct,
      relaxedMinDeliveredFreshnessPct, minInCapFulfillment,
      List.take_of_length_le, demoOrg, demoNode, demoW, demoBatch, demoMLOpts,
      c7Request, c7Alloc, Option.orElse, Option.getD]
  · norm_num [c7Alloc]

/-- C10.  Every allocation record allocateRegular returns has strictly
positive allocated_kg (a line item for which nothing is allocated yields no
record), while allocateML has no such guard: with a zero-quantity winning
batch it emits a record with allocated_kg = 0 that still references the
batch. -/
theorem regular_positive_allocation :
    (∀ (dist : NodeR → NodeR → ℚ) (now : ℚ) (requests : List Request)
        (batches : List Batch) (warehouses ngos : List NodeR)
        (ngoOrgs : List NgoOrg) (opts : AllocOptions),
      ∀ a ∈ allocateRegular dist now requests batches warehouses ngos ngoOrgs opts,
        0 < a.allocated_kg)
    ∧ (allocateML (fun _ _ => 0) (fun _ => 1) 0 [demoRequest] [c10ZeroBatch]
        [demoW] [demoNode] [demoOrg] demoMLOpts (Except.ok []) (Except.ok [])).1
      = [c10Alloc]
    ∧ c10Alloc.allocated_kg = 0 ∧ c10Alloc.batches ≠ [] := by
  refine ⟨?_, ?_, ?_, ?_⟩
  · intro dist now requests batches warehouses ngos ngoOrgs opts
    exact @allocateRegular_sound (fun _ => True) (fun a => 0 < a.allocated_kg)
      dist now requests batches warehouses ngos ngoOrgs opts
      (fun sorted rid t pool item a pool2 _ hs =>
        (regularItemStep_bounds sorted rid t pool item a pool2 hs).1)
      (fun _ _ _ _ => trivial)
  · norm_num +decide [allocateML, mlPlannerPhase, initPlannerDebug,
      mlRequestsLoop, mlDispatchTime, clampDispatch, urgencyBoostOf,
      signalLookup, regionKey, regionalSignalsOf, mlItemsLoop, mlItemStep,
      mlBestState, mlAllCandidates, mlEvaluate, mlEvalWarehouse,
      mlCandidateBatches, mlTierBatches, mlLt, mlScore, mlWeightedGo, scoreGt,
      initMLBest, estimateTravelHours, availableBy, consumeBatches,
      subQuantityFirst, removeFirstById, jsSortBy, jsInsert,
      safeRemainingShelfLifeHours, hasPositiveShelfLife, remainingShelfLifeHours,
      calculateFreshnessPct, tempFactor, round2, jsRound, msPerHour, jmax, jmin,
      mkBatch, topKWarehouses, hardMaxDistanceKm, maxPreferredDistanceKm,
      distanceDecayKm, preferredMinDeliveredFreshnessPct,
      relaxedMinDeliveredFreshnessPct, minInCapFulfillment,
      List.take_of_length_le, demoOrg, demoNode, demoW, demoMLOpts, demoRequest,
      c10ZeroBatch, c10Alloc, Option.orElse, Option.getD]
  · norm_num [c10Alloc]
  · norm_num [c10Alloc]

/-- Witness for C10: the positivity guarantee applied to the allocation of
the concrete baseline demonstration run. -/
theorem regular_positive_allocation_witness :
    0 < demoRegAlloc.allocated_kg :=
  regular_positive_allocation.1 (fun _ _ => 0) 0 [demoRequest] [demoBatch]
    [demoW] [demoNode] [demoOrg]
    { dispatchTimeFloor := none, dispatchTimeCeil := none }
    demoRegAlloc demoRegAlloc_mem

end GrainRoute
